import Mathlib

/-!
Verification development for the PubChemPy client library (pubchempy.py).

The Python module is shallowly embedded: each definition below mirrors one
function or method of the source.  Python dictionaries are modelled as
insertion-ordered association lists (`dset` is dictionary assignment,
`dlookup` is subscript access), Python exceptions are modelled with
`Except PcpError`, and machine-level payloads (coordinates, property
values) that the source merely moves around are kept as type parameters.
-/

/-- Exceptions that the modelled code paths can raise.  `valueError`,
`keyError`, `indexError`, `typeError`, `attributeError` model the
built-in Python exceptions; `responseParse` models `ResponseParseError`;
`http` models the `PubChemHTTPError` family created by
`create_http_error`; `scriptExhausted` marks a scripted transport
running out of responses. -/
inductive ErrorKind where
  | badRequest
  | notFound
  | methodNotAllowed
  | serverError
  | unimplemented
  | serverBusy
  | timeout
  | generic
deriving DecidableEq, Repr

/-- The data carried by a `PubChemHTTPError` (and its subclasses): the
subclass is represented by `kind`, plus the `code`, `msg` and `details`
attributes set in `PubChemHTTPError.__init__`. -/
structure HttpErrorPayload where
  kind : ErrorKind
  code : Nat
  msg : String
  details : List String
deriving DecidableEq, Repr

inductive PcpError where
  | valueError (msg : String)
  | responseParse
  | keyError (k : Nat)
  | keyErrorPair (k : Nat × Nat)
  | keyErrorNone
  | indexError
  | typeError
  | attributeError
  | http (e : HttpErrorPayload)
  | scriptExhausted
deriving DecidableEq, Repr

/-! ### Python dictionaries as insertion-ordered association lists -/

/-- Python dict subscript read `d[k]` (as an `Option`; `none` means the
lookup would raise `KeyError`). -/
def dlookup [DecidableEq κ] (d : List (κ × β)) (k : κ) : Option β :=
  match d with
  | [] => none
  | (k1, v) :: rest => if k1 = k then some v else dlookup rest k

/-- Python dict subscript assignment `d[k] = v`: replaces the value in
place if the key exists, otherwise appends the new pair at the end
(insertion order). -/
def dset [DecidableEq κ] (d : List (κ × β)) (k : κ) (v : β) : List (κ × β) :=
  match d with
  | [] => [(k, v)]
  | (k1, v1) :: rest => if k1 = k then (k, v) :: rest else (k1, v1) :: dset rest k v

/-- The key list of a modelled dictionary. -/
def dkeys (d : List (κ × β)) : List κ := d.map Prod.fst

@[simp] theorem dlookup_nil [DecidableEq κ] (k : κ) :
    dlookup ([] : List (κ × β)) k = none := rfl

theorem dlookup_cons [DecidableEq κ] (k1 k : κ) (v : β) (rest : List (κ × β)) :
    dlookup ((k1, v) :: rest) k = if k1 = k then some v else dlookup rest k := rfl

@[simp] theorem dlookup_dset_self [DecidableEq κ] (d : List (κ × β)) (k : κ) (v : β) :
    dlookup (dset d k v) k = some v := by
  induction d with
  | nil => simp [dset, dlookup]
  | cons p rest ih =>
    obtain ⟨k1, v1⟩ := p
    by_cases h : k1 = k
    · simp [dset, h, dlookup]
    · simp [dset, h, dlookup, ih]

@[simp] theorem dkeys_nil : dkeys ([] : List (κ × β)) = [] := rfl

@[simp] theorem dkeys_cons (p : κ × β) (d : List (κ × β)) :
    dkeys (p :: d) = p.1 :: dkeys d := rfl

theorem dlookup_dset_ne [DecidableEq κ] (d : List (κ × β)) (k k' : κ) (v : β)
    (h : k' ≠ k) : dlookup (dset d k v) k' = dlookup d k' := by
  induction d with
  | nil => simp [dset, dlookup, Ne.symm h]
  | cons p rest ih =>
    obtain ⟨k1, v1⟩ := p
    by_cases h1 : k1 = k
    · subst h1
      simp [dset, dlookup, Ne.symm h]
    · simp [dset, h1, dlookup, ih]

theorem dkeys_dset [DecidableEq κ] (d : List (κ × β)) (k : κ) (v : β) :
    dkeys (dset d k v) = if k ∈ dkeys d then dkeys d else dkeys d ++ [k] := by
  induction d with
  | nil => simp [dset]
  | cons p rest ih =>
    obtain ⟨k1, v1⟩ := p
    by_cases h1 : k1 = k
    · subst h1
      simp [dset]
    · by_cases h2 : k ∈ dkeys rest
      · have hc : k ∈ dkeys ((k1, v1) :: rest) := by simp [h2]
        rw [if_pos hc]
        have hih := ih
        rw [if_pos h2] at hih
        simp [dset, h1, hih]
      · have hc : k ∉ dkeys ((k1, v1) :: rest) := by
          simp [h2, Ne.symm h1]
        rw [if_neg hc]
        have hih := ih
        rw [if_neg h2] at hih
        simp [dset, h1, hih]

theorem nodup_dkeys_dset [DecidableEq κ] (d : List (κ × β)) (k : κ) (v : β)
    (h : (dkeys d).Nodup) : (dkeys (dset d k v)).Nodup := by
  rw [dkeys_dset]
  by_cases h2 : k ∈ dkeys d
  · rwa [if_pos h2]
  · rw [if_neg h2]
    refine List.Nodup.append h (List.nodup_singleton k) ?_
    intro a ha hb
    rw [List.mem_singleton] at hb
    subst hb
    exact h2 ha

theorem dlookup_isSome_iff_mem_dkeys [DecidableEq κ] (d : List (κ × β)) (k : κ) :
    (dlookup d k).isSome ↔ k ∈ dkeys d := by
  induction d with
  | nil => simp [dlookup]
  | cons p rest ih =>
    obtain ⟨k1, v1⟩ := p
    by_cases h : k1 = k
    · simp [dlookup, h]
    · simp [dlookup, h, ih, Ne.symm h]

theorem dset_eq_append [DecidableEq κ] (d : List (κ × β)) (k : κ) (v : β)
    (h : dlookup d k = none) : dset d k v = d ++ [(k, v)] := by
  induction d with
  | nil => simp [dset]
  | cons p rest ih =>
    obtain ⟨k1, v1⟩ := p
    by_cases h1 : k1 = k
    · simp [dlookup, h1] at h
    · simp [dlookup, h1] at h
      simp [dset, h1, ih h]

/-! ### Compound record data model (`Compound._setup_atoms` / `_setup_bonds`) -/

/-- Model of the `Atom` class: `Atom.__init__` stores `aid`, `number`,
optional coordinates and the formal charge.  The coordinate payload type
is a parameter because the source never computes with coordinate values,
it only moves them. -/
structure Atom (α : Type) where
  aid : Nat
  number : Nat
  x : Option α := none
  y : Option α := none
  z : Option α := none
  charge : Int := 0
deriving DecidableEq, Repr

/-- Model of the `Bond` class: begin/end atom ids, bond order (the
`BondType` integer) and the optional style. -/
structure Bond where
  aid1 : Nat
  aid2 : Nat
  order : Nat
  style : Option Nat := none
deriving DecidableEq, Repr

/-- The `record["atoms"]` block: parallel `aid` / `element` arrays and the
optional `charge` list of `(aid, value)` entries. -/
structure AtomsBlock where
  aid : List Nat
  element : List Nat
  charge : Option (List (Nat × Int)) := none
deriving DecidableEq, Repr

/-- The `style` sub-block of a conformer: parallel `aid1` / `aid2` /
`annotation` arrays (the last is called `annot` here). -/
structure StyleBlock where
  aid1 : List Nat
  aid2 : List Nat
  annot : List Nat
deriving DecidableEq, Repr

/-- One entry of the `conformers` array inside a coords block: parallel
`x` / `y` arrays, optional `z`, and the optional `style` block. -/
structure Conformer (α : Type) where
  x : List α
  y : List α
  z : Option (List α) := none
  style : Option StyleBlock := none
deriving DecidableEq, Repr

/-- One entry of the `record["coords"]` array: the coordinate `aid` array
plus the conformers array (the source always reads index 0). -/
structure CoordBlock (α : Type) where
  aid : List Nat
  conformers : List (Conformer α)
deriving DecidableEq, Repr

/-- The `record["bonds"]` block: parallel `aid1` / `aid2` / `order`
arrays. -/
structure BondsBlock where
  aid1 : List Nat
  aid2 : List Nat
  order : List Nat
deriving DecidableEq, Repr

/-- The parts of a raw compound record that `_setup_atoms` and
`_setup_bonds` read.  `none` models the key being absent from the
record dict. -/
structure CompoundRecord (α : Type) where
  atoms : AtomsBlock
  coords : Option (List (CoordBlock α)) := none
  bonds : Option BondsBlock := none
deriving DecidableEq, Repr

/-- The atom built by `Atom(aid=aid, number=element)` in `_setup_atoms`. -/
def mkAtom (α : Type) (p : Nat × Nat) : Atom α :=
  { aid := p.1, number := p.2 }

/-- The `for aid, element in zip(aids, elements): self._atoms[aid] = Atom(...)`
loop, with the dict accumulated explicitly. -/
def buildAtomsGo (α : Type) (d : List (Nat × Atom α)) :
    List (Nat × Nat) → List (Nat × Atom α)
  | [] => d
  | p :: rest => buildAtomsGo α (dset d p.1 (mkAtom α p)) rest

def buildAtoms (α : Type) (pairs : List (Nat × Nat)) : List (Nat × Atom α) :=
  buildAtomsGo α [] pairs

/-- The `for aid, x, y, z in zip_longest(coord_ids, xs, ys, zs)` loop of
`_setup_atoms`: each step does `self._atoms[aid].set_coordinates(x, y, z)`.
A missing dict key raises `KeyError` (`keyError aid`); when the id list is
exhausted before the others, `zip_longest` fills `aid = None` and the dict
lookup raises `KeyError` as well (`keyErrorNone`).  `set_coordinates`
assigns `x`, `y` and `z` exactly as received, including the `None` fills. -/
def fillCoords (α : Type) (d : List (Nat × Atom α)) :
    List Nat → List α → List α → List α → Except PcpError (List (Nat × Atom α))
  | [], [], [], [] => .ok d
  | [], _ :: _, _, _ => .error .keyErrorNone
  | [], [], _ :: _, _ => .error .keyErrorNone
  | [], [], [], _ :: _ => .error .keyErrorNone
  | aid :: ids, xs, ys, zs =>
    match dlookup d aid with
    | none => .error (.keyError aid)
    | some a =>
      fillCoords α (dset d aid { a with x := xs.head?, y := ys.head?, z := zs.head? })
        ids xs.tail ys.tail zs.tail

/-- The charge loop of `_setup_atoms`:
`self._atoms[charge["aid"]].charge = charge["value"]`. -/
def applyCharges (α : Type) (d : List (Nat × Atom α)) :
    List (Nat × Int) → Except PcpError (List (Nat × Atom α))
  | [] => .ok d
  | (aid, v) :: rest =>
    match dlookup d aid with
    | none => .error (.keyError aid)
    | some a => applyCharges α (dset d aid { a with charge := v }) rest

/-- Model of `Compound._setup_atoms`: length check on the parallel
`aid`/`element` arrays, atom construction, optional coordinate back-fill
(guarded by the documented length checks), optional charge back-fill. -/
def setupAtoms (α : Type) (rec : CompoundRecord α) :
    Except PcpError (List (Nat × Atom α)) :=
  let aids := rec.atoms.aid
  let elements := rec.atoms.element
  if aids.length = elements.length then
    let d := buildAtoms α (aids.zip elements)
    let afterCoords : Except PcpError (List (Nat × Atom α)) :=
      match rec.coords with
      | none => .ok d
      | some cbs =>
        match cbs with
        | [] => .error .indexError
        | cb :: _ =>
          match cb.conformers with
          | [] => .error .indexError
          | conf :: _ =>
            let coordIds := cb.aid
            let xs := conf.x
            let ys := conf.y
            let zs := conf.z.getD []
            if (coordIds.length = xs.length ∧ xs.length = ys.length ∧
                  ys.length = d.length) ∧
                (zs.length = 0 ∨ zs.length = coordIds.length) then
              fillCoords α d coordIds xs ys zs
            else .error .responseParse
    match afterCoords with
    | .error e => .error e
    | .ok d2 =>
      match rec.atoms.charge with
      | none => .ok d2
      | some charges => applyCharges α d2 charges
  else .error .responseParse

/-- The unordered bond key: `frozenset((aid1, aid2))`.  Two-element (or
singleton) frozensets of naturals are represented canonically as the
sorted pair, so `bkey a b = bkey b a`. -/
def bkey (a b : Nat) : Nat × Nat := (min a b, max a b)

/-- The bond built by `Bond(aid1=aid1, aid2=aid2, order=order)`. -/
def mkBond (t : Nat × Nat × Nat) : Bond :=
  { aid1 := t.1, aid2 := t.2.1, order := t.2.2 }

/-- `zip` over three parallel arrays (shortest-list semantics, as in
Python's `zip`). -/
def zip3 : List a → List b → List c → List (a × b × c)
  | x :: xs, y :: ys, z :: zs => (x, y, z) :: zip3 xs ys zs
  | _, _, _ => []

/-- The `for aid1, aid2, order in zip(...)` loop of `_setup_bonds`:
`self._bonds[frozenset((aid1, aid2))] = Bond(...)`. -/
def buildBondsGo (d : List ((Nat × Nat) × Bond)) :
    List (Nat × Nat × Nat) → List ((Nat × Nat) × Bond)
  | [] => d
  | t :: rest => buildBondsGo (dset d (bkey t.1 t.2.1) (mkBond t)) rest

def buildBonds (triples : List (Nat × Nat × Nat)) : List ((Nat × Nat) × Bond) :=
  buildBondsGo [] triples

/-- The style loop of `_setup_bonds`:
`self._bonds[frozenset((aid1, aid2))].style = style`; a pair with no bond
raises `KeyError`. -/
def applyStyles (d : List ((Nat × Nat) × Bond)) :
    List (Nat × Nat × Nat) → Except PcpError (List ((Nat × Nat) × Bond))
  | [] => .ok d
  | (a1, a2, s) :: rest =>
    match dlookup d (bkey a1 a2) with
    | none => .error (.keyErrorPair (bkey a1 a2))
    | some b => applyStyles (dset d (bkey a1 a2) { b with style := some s }) rest

/-- Model of `Compound._setup_bonds`: empty dict when the record has no
bonds block; parallel-array length check; bond construction keyed by the
unordered pair; optional style back-fill read from
`record["coords"][0]["conformers"][0]["style"]`. -/
def setupBonds (α : Type) (rec : CompoundRecord α) :
    Except PcpError (List ((Nat × Nat) × Bond)) :=
  match rec.bonds with
  | none => .ok []
  | some bb =>
    if bb.aid1.length = bb.aid2.length ∧ bb.aid2.length = bb.order.length then
      let d := buildBonds (zip3 bb.aid1 bb.aid2 bb.order)
      match rec.coords with
      | none => .ok d
      | some cbs =>
        match cbs with
        | [] => .error .indexError
        | cb :: _ =>
          match cb.conformers with
          | [] => .error .indexError
          | conf :: _ =>
            match conf.style with
            | none => .ok d
            | some sb => applyStyles d (zip3 sb.aid1 sb.aid2 sb.annot)
    else .error .responseParse

/-- Model of `Compound.__init__` via the `record` setter: store the record,
then `_setup_atoms` and `_setup_bonds` (an exception in either aborts
construction). -/
structure CompoundObj (α : Type) where
  record : CompoundRecord α
  atoms : List (Nat × Atom α)
  bonds : List ((Nat × Nat) × Bond)
deriving DecidableEq, Repr

def initCompound (α : Type) (rec : CompoundRecord α) :
    Except PcpError (CompoundObj α) :=
  match setupAtoms α rec with
  | .error e => .error e
  | .ok a =>
    match setupBonds α rec with
    | .error e => .error e
    | .ok b => .ok ⟨rec, a, b⟩

/-! ### Supporting lemmas about the modelled dict loops -/

theorem dlookup_append [DecidableEq κ] (d1 d2 : List (κ × β)) (k : κ) :
    dlookup (d1 ++ d2) k =
      match dlookup d1 k with
      | some v => some v
      | none => dlookup d2 k := by
  induction d1 with
  | nil => simp [dlookup]
  | cons p rest ih =>
    obtain ⟨k1, v1⟩ := p
    by_cases h : k1 = k
    · simp [dlookup, h]
    · simp [dlookup, h, ih]

theorem getElem_opt_zero (l : List γ) : l[0]? = l.head? := by
  cases l <;> simp

theorem getElem_opt_tail (l : List γ) (i : Nat) : l.tail[i]? = l[i + 1]? := by
  cases l <;> simp

/-- With duplicate-free atom ids every dict write in the atom loop hits a
fresh key, so the dict is just the parallel-array zip in order. -/
theorem buildAtomsGo_eq_append (α : Type) :
    ∀ (pairs : List (Nat × Nat)) (acc : List (Nat × Atom α)),
      (pairs.map Prod.fst).Nodup → (∀ p ∈ pairs, dlookup acc p.1 = none) →
      buildAtomsGo α acc pairs = acc ++ pairs.map (fun p => (p.1, mkAtom α p)) := by
  intro pairs
  induction pairs with
  | nil => intro acc _ _; simp [buildAtomsGo]
  | cons p rest ih =>
    intro acc hnd hfresh
    have hfree : dlookup acc p.1 = none := hfresh p (List.mem_cons_self p rest)
    have hset : dset acc p.1 (mkAtom α p) = acc ++ [(p.1, mkAtom α p)] :=
      dset_eq_append acc p.1 (mkAtom α p) hfree
    have hnd2 : (rest.map Prod.fst).Nodup := by
      simpa using hnd.of_cons
    have hhd : p.1 ∉ rest.map Prod.fst := by
      have := hnd
      rw [List.map_cons, List.nodup_cons] at this
      exact this.1
    have hfresh2 : ∀ q ∈ rest, dlookup (acc ++ [(p.1, mkAtom α p)]) q.1 = none := by
      intro q hq
      rw [dlookup_append]
      rw [hfresh q (List.mem_cons_of_mem p hq)]
      have hne : p.1 ≠ q.1 := by
        intro hcontra
        exact hhd (hcontra ▸ List.mem_map_of_mem Prod.fst hq)
      simp [dlookup, hne]
    calc buildAtomsGo α acc (p :: rest)
        = buildAtomsGo α (dset acc p.1 (mkAtom α p)) rest := rfl
      _ = acc ++ [(p.1, mkAtom α p)] ++ rest.map (fun q => (q.1, mkAtom α q)) := by
          rw [hset]; exact ih _ hnd2 hfresh2
      _ = acc ++ (p :: rest).map (fun q => (q.1, mkAtom α q)) := by
          simp

theorem buildAtoms_eq_map (α : Type) (pairs : List (Nat × Nat))
    (hnd : (pairs.map Prod.fst).Nodup) :
    buildAtoms α pairs = pairs.map (fun p => (p.1, mkAtom α p)) := by
  have := buildAtomsGo_eq_append α pairs [] hnd (by intro p _; rfl)
  simpa [buildAtoms] using this

/-- Coordinate back-fill succeeds when every coordinate id is a live dict
key, and fills each matched atom with the parallel-array values at its
index (the tails of over-long value arrays are `none`-filled, matching
`zip_longest`). -/
theorem fillCoords_ok (α : Type) :
    ∀ (ids : List Nat) (xs ys zs : List α) (d : List (Nat × Atom α)),
      ids.Nodup →
      (∀ a ∈ ids, (dlookup d a).isSome) →
      xs.length ≤ ids.length → ys.length ≤ ids.length → zs.length ≤ ids.length →
      ∃ d2, fillCoords α d ids xs ys zs = .ok d2 ∧
        (∀ k, k ∉ ids → dlookup d2 k = dlookup d k) ∧
        (∀ i, (hi : i < ids.length) → dlookup d2 ids[i] =
          (dlookup d ids[i]).map
            (fun a => { a with x := xs[i]?, y := ys[i]?, z := zs[i]? })) := by
  intro ids
  induction ids with
  | nil =>
    intro xs ys zs d _ _ hx hy hz
    have hxe : xs = [] := List.eq_nil_of_length_eq_zero (Nat.le_zero.mp hx)
    have hye : ys = [] := List.eq_nil_of_length_eq_zero (Nat.le_zero.mp hy)
    have hze : zs = [] := List.eq_nil_of_length_eq_zero (Nat.le_zero.mp hz)
    subst hxe; subst hye; subst hze
    exact ⟨d, rfl, fun k _ => rfl, fun i hi => absurd hi (Nat.not_lt_zero i)⟩
  | cons aid ids ih =>
    intro xs ys zs d hnd hpres hx hy hz
    obtain ⟨a, ha⟩ := Option.isSome_iff_exists.mp
      (hpres aid (List.mem_cons_self aid ids))
    have haid : aid ∉ ids := (List.nodup_cons.mp hnd).1
    set a2 : Atom α := { a with x := xs.head?, y := ys.head?, z := zs.head? } with ha2
    have hpres2 : ∀ b ∈ ids, (dlookup (dset d aid a2) b).isSome := by
      intro b hb
      have hne : b ≠ aid := fun hc => haid (hc ▸ hb)
      rw [dlookup_dset_ne d aid b a2 hne]
      exact hpres b (List.mem_cons_of_mem aid hb)
    have hx2 : xs.tail.length ≤ ids.length := by
      rcases xs with _ | ⟨x, xs⟩ <;> simp_all
    have hy2 : ys.tail.length ≤ ids.length := by
      rcases ys with _ | ⟨y, ys⟩ <;> simp_all
    have hz2 : zs.tail.length ≤ ids.length := by
      rcases zs with _ | ⟨z, zs⟩ <;> simp_all
    obtain ⟨d2, heq, hout, hin⟩ :=
      ih xs.tail ys.tail zs.tail (dset d aid a2) (List.nodup_cons.mp hnd).2
        hpres2 hx2 hy2 hz2
    refine ⟨d2, ?_, ?_, ?_⟩
    · simpa [fillCoords, ha] using heq
    · intro k hk
      have hk1 : k ≠ aid := fun hc => hk (hc ▸ List.mem_cons_self aid ids)
      have hk2 : k ∉ ids := fun hc => hk (List.mem_cons_of_mem aid hc)
      rw [hout k hk2, dlookup_dset_ne d aid k a2 hk1]
    · intro i hi
      match i with
      | 0 =>
        have h0 : dlookup d2 aid = dlookup (dset d aid a2) aid := hout aid haid
        simp only [List.getElem_cons_zero, h0, dlookup_dset_self, ha,
          getElem_opt_zero]
        rfl
      | Nat.succ j =>
        have hj : j < ids.length := by
          simpa [Nat.succ_lt_succ_iff] using hi
        have hmem : ids[j] ∈ ids := List.getElem_mem hj
        have hne : ids[j] ≠ aid := fun hc => haid (hc ▸ hmem)
        have := hin j hj
        rw [dlookup_dset_ne d aid ids[j] a2 hne] at this
        simpa [getElem_opt_tail] using this

/-- Coordinate back-fill raises `KeyError` as soon as it reaches a
coordinate id that is not a dict key. -/
theorem fillCoords_err (α : Type) :
    ∀ (ids : List Nat) (xs ys zs : List α) (d : List (Nat × Atom α)),
      (∃ a ∈ ids, dlookup d a = none) →
      ∃ k, fillCoords α d ids xs ys zs = .error (.keyError k) ∧
        k ∈ ids ∧ dlookup d k = none := by
  intro ids
  induction ids with
  | nil => intro xs ys zs d h; obtain ⟨a, ha, _⟩ := h; exact absurd ha (List.not_mem_nil a)
  | cons aid ids ih =>
    intro xs ys zs d h
    cases hlook : dlookup d aid with
    | none =>
      exact ⟨aid, by simp [fillCoords, hlook], List.mem_cons_self aid ids, hlook⟩
    | some a =>
      obtain ⟨b, hb, hbnone⟩ := h
      have hbne : b ≠ aid := by
        intro hc; rw [hc, hlook] at hbnone; exact Option.noConfusion hbnone
      have hbmem : b ∈ ids := by
        rcases List.mem_cons.mp hb with hc | hc
        · exact absurd hc hbne
        · exact hc
      set a2 : Atom α := { a with x := xs.head?, y := ys.head?, z := zs.head? } with ha2
      have hb2 : dlookup (dset d aid a2) b = none := by
        rw [dlookup_dset_ne d aid b a2 hbne]; exact hbnone
      obtain ⟨k, hk, hkmem, hknone⟩ :=
        ih xs.tail ys.tail zs.tail (dset d aid a2) ⟨b, hbmem, hb2⟩
      have hkne : k ≠ aid := by
        intro hc
        rw [hc, dlookup_dset_self] at hknone
        exact Option.noConfusion hknone
      refine ⟨k, by simpa [fillCoords, hlook] using hk,
        List.mem_cons_of_mem aid hkmem, ?_⟩
      rw [← dlookup_dset_ne d aid k a2 hkne]
      exact hknone

/-- Shape of `_setup_atoms` when the record has no coords block and no
charge block: the result is exactly the atom dict. -/
theorem setupAtoms_no_coords (α : Type) (rec : CompoundRecord α)
    (hlen : rec.atoms.aid.length = rec.atoms.element.length)
    (hco : rec.coords = none) (hch : rec.atoms.charge = none) :
    setupAtoms α rec = .ok (buildAtoms α (rec.atoms.aid.zip rec.atoms.element)) := by
  unfold setupAtoms
  rw [if_pos hlen]
  simp only [hco, hch]

/-- Shape of `_setup_atoms` when a coords block is present (first coord
block, first conformer), the record has no charge block, and the
documented length checks pass: the result is the coordinate back-fill
loop run on the atom dict. -/
theorem setupAtoms_with_coords (α : Type) (rec : CompoundRecord α) (cb : CoordBlock α)
    (cbs : List (CoordBlock α)) (conf : Conformer α) (confs : List (Conformer α))
    (hco : rec.coords = some (cb :: cbs)) (hconf : cb.conformers = conf :: confs)
    (hlen : rec.atoms.aid.length = rec.atoms.element.length)
    (hch : rec.atoms.charge = none)
    (hcond : (cb.aid.length = conf.x.length ∧ conf.x.length = conf.y.length ∧
        conf.y.length = (buildAtoms α (rec.atoms.aid.zip rec.atoms.element)).length) ∧
      ((conf.z.getD []).length = 0 ∨ (conf.z.getD []).length = cb.aid.length)) :
    setupAtoms α rec =
      fillCoords α (buildAtoms α (rec.atoms.aid.zip rec.atoms.element))
        cb.aid conf.x conf.y (conf.z.getD []) := by
  unfold setupAtoms
  rw [if_pos hlen]
  simp only [hco, hconf, hch]
  rw [if_pos hcond]
  cases hres : fillCoords α (buildAtoms α (rec.atoms.aid.zip rec.atoms.element))
      cb.aid conf.x conf.y (conf.z.getD []) with
  | error e => rfl
  | ok d2 => rfl

theorem dkeys_buildAtoms (α : Type) (aids elements : List Nat)
    (hlen : aids.length = elements.length) (hnd : aids.Nodup) :
    dkeys (buildAtoms α (aids.zip elements)) = aids := by
  have hfst : (aids.zip elements).map Prod.fst = aids :=
    List.map_fst_zip aids elements (le_of_eq hlen)
  have hnd2 : ((aids.zip elements).map Prod.fst).Nodup := by rw [hfst]; exact hnd
  rw [buildAtoms_eq_map α _ hnd2]
  rw [show dkeys ((aids.zip elements).map (fun p => (p.1, mkAtom α p)))
      = (aids.zip elements).map Prod.fst by simp [dkeys, List.map_map]]
  exact hfst

/-- Claim C6: a length mismatch between the parallel atom-id and
atomic-number arrays makes Compound construction fail with
`ResponseParseError` (no silent truncation); with matching lengths,
`_setup_atoms` produces exactly one `Atom` per id/number pair. -/
theorem setupAtoms_length_check (α : Type) (rec : CompoundRecord α) :
    (rec.atoms.aid.length ≠ rec.atoms.element.length →
      initCompound α rec = .error .responseParse)
    ∧ (rec.atoms.aid.length = rec.atoms.element.length →
      rec.atoms.aid.Nodup → rec.coords = none → rec.atoms.charge = none →
      setupAtoms α rec =
        .ok ((rec.atoms.aid.zip rec.atoms.element).map (fun p => (p.1, mkAtom α p)))
      ∧ ((rec.atoms.aid.zip rec.atoms.element).map
          (fun p => (p.1, mkAtom α p))).length = rec.atoms.aid.length) := by
  constructor
  · intro hne
    have h1 : setupAtoms α rec = .error .responseParse := by
      unfold setupAtoms
      rw [if_neg hne]
    simp [initCompound, h1]
  · intro hlen hnd hco hch
    have hfst : (rec.atoms.aid.zip rec.atoms.element).map Prod.fst = rec.atoms.aid :=
      List.map_fst_zip _ _ (le_of_eq hlen)
    have hnd2 : ((rec.atoms.aid.zip rec.atoms.element).map Prod.fst).Nodup := by
      rw [hfst]; exact hnd
    constructor
    · rw [setupAtoms_no_coords α rec hlen hco hch, buildAtoms_eq_map α _ hnd2]
    · rw [List.length_map, List.length_zip, hlen, Nat.min_self, ← hlen]

/-- Closed instance of `setupAtoms_length_check` at a concrete record
(ids of length 3, elements of length 2 as in the spec test, and the
matched-length branch at a two-atom record). -/
theorem setupAtoms_length_check_witness :
    initCompound Int
      { atoms := { aid := [1, 2, 3], element := [6, 8] } } = .error .responseParse
    ∧ setupAtoms Int { atoms := { aid := [1, 2], element := [6, 8] } } =
        .ok [(1, { aid := 1, number := 6 }), (2, { aid := 2, number := 8 })] := by
  refine ⟨(setupAtoms_length_check Int _).1 (by decide), ?_⟩
  have h := ((setupAtoms_length_check Int
      { atoms := { aid := [1, 2], element := [6, 8] } }).2
    (by decide) (by decide) rfl rfl).1
  simpa using h

/-- Refutation of claim C1 as stated: a record whose coords block passes
every documented length check but whose coordinate-id array names an id
(3) that is not an atom id (atom ids are 1 and 2).  The claim says such
an entry is "simply not filled" and "tolerated without any error being
raised"; the code executes `self._atoms[3].set_coordinates(...)`, which
raises `KeyError` (not a `ResponseParseError`). -/
theorem setupAtoms_unmatched_coord_cex :
    setupAtoms Int
      { atoms := { aid := [1, 2], element := [6, 8] },
        coords := some [{ aid := [1, 3],
                          conformers := [{ x := [0, 0], y := [0, 0] }] }] } =
      .error (.keyError 3) := by
  rfl

/-- Claim C1 (amended): for a record passing the documented coordinate
length checks, `_setup_atoms` back-fills x/y/z onto the Atom whose id
matches each coordinate entry; a coordinate entry whose id is absent from
the atom id list raises a `KeyError` (it is not tolerated). -/
theorem setupAtoms_coords_backfill (α : Type) (rec : CompoundRecord α)
    (cb : CoordBlock α) (cbs : List (CoordBlock α))
    (conf : Conformer α) (confs : List (Conformer α))
    (hco : rec.coords = some (cb :: cbs)) (hconf : cb.conformers = conf :: confs)
    (hlen : rec.atoms.aid.length = rec.atoms.element.length)
    (hanod : rec.atoms.aid.Nodup) (hch : rec.atoms.charge = none)
    (hcnod : cb.aid.Nodup)
    (hx : conf.x.length = cb.aid.length) (hy : conf.y.length = cb.aid.length)
    (hz : (conf.z.getD []).length = 0 ∨ (conf.z.getD []).length = cb.aid.length)
    (hcnt : cb.aid.length = rec.atoms.aid.length) :
    ((∀ a ∈ cb.aid, a ∈ rec.atoms.aid) →
      ∃ d2, setupAtoms α rec = .ok d2 ∧
        (∀ k, k ∉ cb.aid →
          dlookup d2 k =
            dlookup (buildAtoms α (rec.atoms.aid.zip rec.atoms.element)) k) ∧
        (∀ i, (hi : i < cb.aid.length) →
          dlookup d2 cb.aid[i] =
            (dlookup (buildAtoms α (rec.atoms.aid.zip rec.atoms.element))
                cb.aid[i]).map
              (fun a =>
                { a with x := conf.x[i]?, y := conf.y[i]?,
                         z := (conf.z.getD [])[i]? })))
    ∧ ((∃ a ∈ cb.aid, a ∉ rec.atoms.aid) →
      ∃ k, setupAtoms α rec = .error (.keyError k) ∧
        k ∈ cb.aid ∧ k ∉ rec.atoms.aid) := by
  have hd0len : (buildAtoms α (rec.atoms.aid.zip rec.atoms.element)).length
      = rec.atoms.aid.length := by
    have := congrArg List.length (dkeys_buildAtoms α _ _ hlen hanod)
    simpa [dkeys] using this
  have hkeys : dkeys (buildAtoms α (rec.atoms.aid.zip rec.atoms.element))
      = rec.atoms.aid := dkeys_buildAtoms α _ _ hlen hanod
  have hshape : setupAtoms α rec =
      fillCoords α (buildAtoms α (rec.atoms.aid.zip rec.atoms.element))
        cb.aid conf.x conf.y (conf.z.getD []) := by
    refine setupAtoms_with_coords α rec cb cbs conf confs hco hconf hlen hch ?_
    exact ⟨⟨hx.symm, hx.trans hy.symm, by rw [hy, hcnt, hd0len]⟩, hz⟩
  constructor
  · intro hall
    have hpres : ∀ a ∈ cb.aid,
        (dlookup (buildAtoms α (rec.atoms.aid.zip rec.atoms.element)) a).isSome := by
      intro a ha
      rw [dlookup_isSome_iff_mem_dkeys, hkeys]
      exact hall a ha
    obtain ⟨d2, heq, hout, hin⟩ :=
      fillCoords_ok α cb.aid conf.x conf.y (conf.z.getD [])
        (buildAtoms α (rec.atoms.aid.zip rec.atoms.element)) hcnod hpres
        (le_of_eq hx) (le_of_eq hy)
        (by rcases hz with hz | hz
            · omega
            · exact le_of_eq hz)
    exact ⟨d2, hshape.trans heq, hout, hin⟩
  · intro hsome
    obtain ⟨a, ha, hnot⟩ := hsome
    have hnone : dlookup (buildAtoms α (rec.atoms.aid.zip rec.atoms.element)) a
        = none := by
      cases hcase : dlookup (buildAtoms α (rec.atoms.aid.zip rec.atoms.element)) a with
      | none => rfl
      | some v =>
        exfalso
        apply hnot
        rw [← hkeys]
        rw [← dlookup_isSome_iff_mem_dkeys]
        rw [hcase]
        rfl
    obtain ⟨k, hk, hkmem, hknone⟩ :=
      fillCoords_err α cb.aid conf.x conf.y (conf.z.getD [])
        (buildAtoms α (rec.atoms.aid.zip rec.atoms.element)) ⟨a, ha, hnone⟩
    refine ⟨k, hshape.trans hk, hkmem, ?_⟩
    rw [← hkeys]
    rw [← dlookup_isSome_iff_mem_dkeys, hknone]
    simp

/-- Closed instance of `setupAtoms_coords_backfill` at a concrete 2D
record (atom ids 1 and 2, coordinate ids 2 and 1, no z array). -/
theorem setupAtoms_coords_backfill_witness :
    ((∀ a ∈ [2, 1], a ∈ [1, 2]) →
      ∃ d2, setupAtoms Int
          { atoms := { aid := [1, 2], element := [6, 8] },
            coords := some [{ aid := [2, 1],
                              conformers := [{ x := [10, 20], y := [30, 40] }] }] }
        = .ok d2 ∧
        (∀ k, k ∉ [2, 1] →
          dlookup d2 k = dlookup (buildAtoms Int ([1, 2].zip [6, 8])) k) ∧
        (∀ i, (hi : i < [2, 1].length) →
          dlookup d2 [2, 1][i] =
            (dlookup (buildAtoms Int ([1, 2].zip [6, 8])) [2, 1][i]).map
              (fun a =>
                { a with x := [(10 : Int), 20][i]?, y := [(30 : Int), 40][i]?,
                         z := ([] : List Int)[i]? })))
    ∧ ((∃ a ∈ [2, 1], a ∉ [1, 2]) →
      ∃ k, setupAtoms Int
          { atoms := { aid := [1, 2], element := [6, 8] },
            coords := some [{ aid := [2, 1],
                              conformers := [{ x := [10, 20], y := [30, 40] }] }] }
        = .error (.keyError k) ∧ k ∈ [2, 1] ∧ k ∉ [1, 2]) := by
  exact setupAtoms_coords_backfill Int
    { atoms := { aid := [1, 2], element := [6, 8] },
      coords := some [{ aid := [2, 1],
                        conformers := [{ x := [10, 20], y := [30, 40] }] }] }
    { aid := [2, 1], conformers := [{ x := [10, 20], y := [30, 40] }] } []
    { x := [10, 20], y := [30, 40] } []
    rfl rfl (by decide) (by decide) rfl (by decide)
    (by decide) (by decide) (by decide) (by decide)

/-! ### Bond dictionary lemmas (`_setup_bonds`) -/

theorem buildBondsGo_keys_nodup :
    ∀ (ts : List (Nat × Nat × Nat)) (d : List ((Nat × Nat) × Bond)),
      (dkeys d).Nodup → (dkeys (buildBondsGo d ts)).Nodup := by
  intro ts
  induction ts with
  | nil => intro d h; exact h
  | cons t ts ih =>
    intro d h
    exact ih _ (nodup_dkeys_dset d (bkey t.1 t.2.1) (mkBond t) h)

theorem applyStyles_keys_nodup :
    ∀ (l : List (Nat × Nat × Nat)) (d d2 : List ((Nat × Nat) × Bond)),
      applyStyles d l = .ok d2 → (dkeys d).Nodup → (dkeys d2).Nodup := by
  intro l
  induction l with
  | nil =>
    intro d d2 h hnd
    simp only [applyStyles] at h
    cases h
    exact hnd
  | cons t ts ih =>
    intro d d2 h hnd
    obtain ⟨a1, a2, s⟩ := t
    simp only [applyStyles] at h
    cases hlook : dlookup d (bkey a1 a2) with
    | none => rw [hlook] at h; exact Except.noConfusion h
    | some b =>
      rw [hlook] at h
      exact ih _ _ h (nodup_dkeys_dset d (bkey a1 a2) { b with style := some s } hnd)

/-- The last triple in a bond list whose unordered endpoint pair is `k`
(the entry whose `Bond` survives the dict-overwrite semantics). -/
def lastBondFor : List (Nat × Nat × Nat) → (Nat × Nat) → Option (Nat × Nat × Nat)
  | [], _ => none
  | t :: ts, k =>
    match lastBondFor ts k with
    | some u => some u
    | none => if bkey t.1 t.2.1 = k then some t else none

theorem buildBondsGo_lookup :
    ∀ (ts : List (Nat × Nat × Nat)) (d : List ((Nat × Nat) × Bond)) (k : Nat × Nat),
      dlookup (buildBondsGo d ts) k =
        match lastBondFor ts k with
        | some t => some (mkBond t)
        | none => dlookup d k := by
  intro ts
  induction ts with
  | nil => intro d k; rfl
  | cons t ts ih =>
    intro d k
    have step : buildBondsGo d (t :: ts) =
        buildBondsGo (dset d (bkey t.1 t.2.1) (mkBond t)) ts := rfl
    rw [step, ih]
    cases hlast : lastBondFor ts k with
    | some u => simp [lastBondFor, hlast]
    | none =>
      by_cases hk : bkey t.1 t.2.1 = k
      · simp only [lastBondFor, hlast, if_pos hk]
        rw [← hk, dlookup_dset_self]
      · simp only [lastBondFor, hlast, if_neg hk]
        exact dlookup_dset_ne d (bkey t.1 t.2.1) k (mkBond t) (fun hc => hk hc.symm)

theorem buildBonds_lookup (ts : List (Nat × Nat × Nat)) (k : Nat × Nat) :
    dlookup (buildBonds ts) k = (lastBondFor ts k).map mkBond := by
  rw [buildBonds, buildBondsGo_lookup]
  cases lastBondFor ts k <;> rfl

/-- Shape of `_setup_bonds` when the record has a bonds block of matching
lengths and no coords block: the result is the bond dict built by the
construction loop. -/
theorem setupBonds_no_style (α : Type) (rec : CompoundRecord α) (bb : BondsBlock)
    (hb : rec.bonds = some bb) (hco : rec.coords = none)
    (hlen : bb.aid1.length = bb.aid2.length ∧ bb.aid2.length = bb.order.length) :
    setupBonds α rec = .ok (buildBonds (zip3 bb.aid1 bb.aid2 bb.order)) := by
  unfold setupBonds
  simp only [hb]
  rw [if_pos hlen]
  simp only [hco]

theorem setupBonds_keys_nodup (α : Type) (rec : CompoundRecord α)
    (d : List ((Nat × Nat) × Bond)) (h : setupBonds α rec = .ok d) :
    (dkeys d).Nodup := by
  cases hb : rec.bonds with
  | none =>
    unfold setupBonds at h
    simp only [hb] at h
    cases h
    simp
  | some bb =>
    unfold setupBonds at h
    simp only [hb] at h
    by_cases hlen : bb.aid1.length = bb.aid2.length ∧ bb.aid2.length = bb.order.length
    · rw [if_pos hlen] at h
      have hnd0 : (dkeys (buildBonds (zip3 bb.aid1 bb.aid2 bb.order))).Nodup :=
        buildBondsGo_keys_nodup _ [] (by simp)
      cases hco : rec.coords with
      | none =>
        simp only [hco] at h
        cases h
        exact hnd0
      | some cbs =>
        simp only [hco] at h
        cases cbs with
        | nil => exact Except.noConfusion h
        | cons cb cbs2 =>
          cases hcf : cb.conformers with
          | nil =>
            simp only [hcf] at h
            exact Except.noConfusion h
          | cons conf confs =>
            simp only [hcf] at h
            cases hst : conf.style with
            | none =>
              simp only [hst] at h
              cases h
              exact hnd0
            | some sb =>
              simp only [hst] at h
              exact applyStyles_keys_nodup _ _ _ h hnd0
    · rw [if_neg hlen] at h
      exact Except.noConfusion h

/-- Claim C5: bond identity is keyed by the unordered endpoint pair.
(1) Any bond dict produced by `_setup_bonds` has duplicate-free keys, so
at most one `Bond` exists per unordered atom-id pair.  (2) With bonds
built from parallel arrays, the dict entry at a pair is the `Bond` of the
LAST triple with that unordered pair (a later entry silently overwrites
an earlier one).  (3) A style entry referencing the pair in the reversed
order is attached to the same `Bond`. -/
theorem setupBonds_unordered_pair (α : Type) :
    (∀ (rec : CompoundRecord α) d, setupBonds α rec = .ok d → (dkeys d).Nodup)
    ∧ (∀ (rec : CompoundRecord α) (bb : BondsBlock),
        rec.bonds = some bb → rec.coords = none →
        bb.aid1.length = bb.aid2.length → bb.aid2.length = bb.order.length →
        setupBonds α rec = .ok (buildBonds (zip3 bb.aid1 bb.aid2 bb.order))
        ∧ ∀ k, dlookup (buildBonds (zip3 bb.aid1 bb.aid2 bb.order)) k =
            (lastBondFor (zip3 bb.aid1 bb.aid2 bb.order) k).map mkBond)
    ∧ (∀ (ab : AtomsBlock) (a b o s : Nat),
        setupBonds α
          { atoms := ab,
            coords := some [{ aid := [],
                              conformers := [{ x := [], y := [],
                                               style := some { aid1 := [b],
                                                               aid2 := [a],
                                                               annot := [s] } }] }],
            bonds := some { aid1 := [a], aid2 := [b], order := [o] } } =
          .ok [(bkey a b, { aid1 := a, aid2 := b, order := o, style := some s })]) := by
  refine ⟨setupBonds_keys_nodup α, ?_, ?_⟩
  · intro rec bb hb hco h1 h2
    exact ⟨setupBonds_no_style α rec bb hb hco ⟨h1, h2⟩,
      fun k => buildBonds_lookup (zip3 bb.aid1 bb.aid2 bb.order) k⟩
  · intro ab a b o s
    have hk : bkey b a = bkey a b := by
      simp [bkey, Nat.min_comm, Nat.max_comm]
    have hlook : dlookup [(bkey a b, ({ aid1 := a, aid2 := b, order := o } : Bond))]
        (bkey b a) = some { aid1 := a, aid2 := b, order := o } := by
      rw [hk, dlookup_cons, if_pos rfl]
    have hdset : dset [(bkey a b, ({ aid1 := a, aid2 := b, order := o } : Bond))]
        (bkey b a) ({ aid1 := a, aid2 := b, order := o, style := some s } : Bond)
        = [(bkey a b, { aid1 := a, aid2 := b, order := o, style := some s })] := by
      rw [hk]
      simp [dset]
    show applyStyles (buildBonds (zip3 [a] [b] [o])) (zip3 [b] [a] [s]) =
      .ok [(bkey a b, { aid1 := a, aid2 := b, order := o, style := some s })]
    rw [show buildBonds (zip3 [a] [b] [o]) =
        [(bkey a b, ({ aid1 := a, aid2 := b, order := o } : Bond))] from rfl]
    rw [show zip3 [b] [a] [s] = [(b, a, s)] from rfl]
    simp only [applyStyles, hlook, hdset]

/-- Closed instance of `setupBonds_unordered_pair`: a record with bond
`(1,2)` and a style entry `(2,1)`; duplicate-pair overwrite checked on
triples `(1,2,order 1)` then `(2,1,order 2)`. -/
theorem setupBonds_unordered_pair_witness :
    (dkeys [(bkey 1 2, ({ aid1 := 1, aid2 := 2, order := 1 } : Bond))]).Nodup
    ∧ (setupBonds Int
        { atoms := { aid := [1, 2], element := [6, 8] },
          bonds := some { aid1 := [1, 2], aid2 := [2, 1], order := [1, 2] } } =
        .ok (buildBonds (zip3 [1, 2] [2, 1] [1, 2]))
      ∧ ∀ k, dlookup (buildBonds (zip3 [1, 2] [2, 1] [1, 2])) k =
          (lastBondFor (zip3 [1, 2] [2, 1] [1, 2]) k).map mkBond)
    ∧ setupBonds Int
        { atoms := { aid := [1, 2], element := [6, 8] },
          coords := some [{ aid := [],
                            conformers := [{ x := [], y := [],
                                             style := some { aid1 := [2],
                                                             aid2 := [1],
                                                             annot := [5] } }] }],
          bonds := some { aid1 := [1], aid2 := [2], order := [1] } } =
        .ok [(bkey 1 2, { aid1 := 1, aid2 := 2, order := 1, style := some 5 })] := by
  refine ⟨?_, ?_, ?_⟩
  · exact (setupBonds_unordered_pair Int).1
      { atoms := { aid := [1, 2], element := [6, 8] },
        bonds := some { aid1 := [1], aid2 := [2], order := [1] } } _ (by rfl)
  · exact (setupBonds_unordered_pair Int).2.1
      { atoms := { aid := [1, 2], element := [6, 8] },
        bonds := some { aid1 := [1, 2], aid2 := [2, 1], order := [1, 2] } }
      { aid1 := [1, 2], aid2 := [2, 1], order := [1, 2] } rfl rfl rfl rfl
  · exact (setupBonds_unordered_pair Int).2.2
      { aid := [1, 2], element := [6, 8] } 1 2 1 5

/-! ### Property accessor (`_parse_prop`) -/

/-- One entry of a property list: the `urn` tag dict and the `value`
dict.  The value payload type is a parameter (string/float/int/list in
the source); the value dict's key order matters because `_parse_prop`
returns the first key's payload. -/
structure PropEntry (β : Type) where
  urn : List (String × String)
  value : List (String × β)
deriving Repr

/-- The filter predicate of `_parse_prop`:
`all(item in i["urn"].items() for item in search.items())`. -/
def urnMatches (search : List (String × String)) (entry : PropEntry β) : Bool :=
  search.all (fun item => decide (item ∈ entry.urn))

/-- Model of `_parse_prop(search, proplist)`: filter the property list to
entries whose urn tag dict contains every key/value pair of the search
filter, and return the first matching entry's value payload at its value
dict's first key (`props[0]["value"][list(props[0]["value"].keys())[0]]`);
`none` when no entry matches.  An empty value dict on the selected entry
would raise `IndexError` in the source (`.keys())[0]`). -/
def parseProp (search : List (String × String)) (proplist : List (PropEntry β)) :
    Except PcpError (Option β) :=
  match proplist.filter (urnMatches search) with
  | [] => .ok none
  | p :: _ =>
    match p.value with
    | [] => .error .indexError
    | kv :: _ => .ok (some kv.2)

/-- Claim C7: `_parse_prop` returns the value payload of the first entry
in list order whose urn tag set contains every pair of the filter
(superset match), and an absent result (`none`, not an error) when no
entry matches. -/
theorem parseProp_first_superset_match (β : Type) (search : List (String × String))
    (pl : List (PropEntry β)) :
    ((∀ p ∈ pl, urnMatches search p = false) → parseProp search pl = .ok none)
    ∧ (∀ i, (hi : i < pl.length) → urnMatches search pl[i] = true →
      (∀ p ∈ pl.take i, urnMatches search p = false) →
      ∀ k v rest, pl[i].value = (k, v) :: rest →
        parseProp search pl = .ok (some v)) := by
  constructor
  · intro hnone
    have hfilter : pl.filter (urnMatches search) = [] := by
      rw [List.filter_eq_nil_iff]
      intro p hp
      rw [hnone p hp]
      exact Bool.false_ne_true
    rw [parseProp, hfilter]
  · induction pl with
    | nil => intro i hi; exact absurd hi (Nat.not_lt_zero i)
    | cons q ql ih =>
      intro i hi hmatch hbefore k v rest hval
      match i with
      | 0 =>
        have hq : urnMatches search q = true := hmatch
        have hval0 : q.value = (k, v) :: rest := hval
        have hfilter : (q :: ql).filter (urnMatches search) =
            q :: ql.filter (urnMatches search) := by
          rw [List.filter_cons_of_pos hq]
        simp only [parseProp, hfilter, hval0]
      | Nat.succ j =>
        have hqf : urnMatches search q = false := by
          apply hbefore
          simp [List.take_succ_cons]
        have hfilter : (q :: ql).filter (urnMatches search) =
            ql.filter (urnMatches search) := by
          rw [List.filter_cons_of_neg (by rw [hqf]; exact Bool.false_ne_true)]
        have hj : j < ql.length := by simpa [Nat.succ_lt_succ_iff] using hi
        have hmatch2 : urnMatches search ql[j] = true := by
          simpa using hmatch
        have hbefore2 : ∀ p ∈ ql.take j, urnMatches search p = false := by
          intro p hp
          exact hbefore p (by simp [List.take_succ_cons, hp])
        have hval2 : ql[j].value = (k, v) :: rest := by
          simpa using hval
        have := ih j hj hmatch2 hbefore2 k v rest hval2
        rw [parseProp, hfilter]
        rw [parseProp] at this
        exact this

/-- Closed instance of `parseProp_first_superset_match` at the spec's
SMILES example: two entries tagged Connectivity and Absolute; each filter
selects exactly its own variant, never cross-matching. -/
theorem parseProp_first_superset_match_witness :
    parseProp [("label", "SMILES"), ("name", "Connectivity")]
      [{ urn := [("label", "SMILES"), ("name", "Connectivity")],
         value := [("sval", "CC(=O)OC1=CC=CC=C1C(=O)O")] },
       { urn := [("label", "SMILES"), ("name", "Absolute")],
         value := [("sval", "CC(=O)OC1=CC=CC=C1C(O)=O")] }] =
      .ok (some "CC(=O)OC1=CC=CC=C1C(=O)O")
    ∧ parseProp [("label", "SMILES"), ("name", "Absolute")]
      [{ urn := [("label", "SMILES"), ("name", "Connectivity")],
         value := [("sval", "CC(=O)OC1=CC=CC=C1C(=O)O")] },
       { urn := [("label", "SMILES"), ("name", "Absolute")],
         value := [("sval", "CC(=O)OC1=CC=CC=C1C(O)=O")] }] =
      .ok (some "CC(=O)OC1=CC=CC=C1C(O)=O")
    ∧ parseProp [("label", "Fingerprint")]
      [{ urn := [("label", "SMILES"), ("name", "Connectivity")],
         value := [("sval", "CC(=O)OC1=CC=CC=C1C(=O)O")] }] =
      .ok (none : Option String) := by
  refine ⟨?_, ?_, ?_⟩
  · exact (parseProp_first_superset_match String _ _).2 0 (by decide) (by decide)
      (by intro p hp; simp at hp) "sval" "CC(=O)OC1=CC=CC=C1C(=O)O" [] rfl
  · exact (parseProp_first_superset_match String _ _).2 1 (by decide) (by decide)
      (by intro p hp
          simp at hp
          rw [hp]
          decide) "sval" "CC(=O)OC1=CC=CC=C1C(O)=O" [] rfl
  · exact (parseProp_first_superset_match String _ _).1
      (by intro p hp
          simp at hp
          rw [hp]
          decide)

/-! ### Error classifier (`create_http_error`) -/

/-- The `error_map` dict of `create_http_error`. -/
def errorMap : List (Nat × ErrorKind) :=
  [(400, .badRequest), (404, .notFound), (405, .methodNotAllowed),
   (500, .serverError), (501, .unimplemented), (503, .serverBusy),
   (504, .timeout)]

/-- The shape of the response body that `create_http_error`'s `try`
block encounters.  `notJson` is a missing, malformed or non-JSON body
(`e.read()`/`json.loads` raises `ValueError` — caught); `jsonNonObject`
is valid JSON that is not an object, e.g. `[1,2,3]`, `"x"`, `123` or
`null` (subscripting it with `["Fault"]` raises `TypeError` — NOT in the
`except (ValueError, IndexError, KeyError)` tuple); `noFaultKey` is a
JSON object without a `"Fault"` key (`KeyError` — caught); `faultNotDict`
is a JSON object whose `"Fault"` value is not an object, e.g.
`{"Fault": null}` (`fault.get(...)` raises `AttributeError` — not
caught); `fault` is an object with a `"Fault"` object carrying the
optional `Code`, `Message` and `Details` fields. -/
inductive FaultBody where
  | notJson
  | jsonNonObject
  | noFaultKey
  | faultNotDict
  | fault (fcode : Option String) (fmsg : Option String)
      (fdetails : Option (List String))
deriving DecidableEq, Repr

/-- Model of `create_http_error(e)`: `code`/`msg` come from the failed
response (`e.code`, `e.msg` the HTTP reason phrase); the fault body, when
parseable, overrides `msg` with its `Code`, appends `": Message"`, and
supplies `details`; the error subclass is `error_map.get(code,
PubChemHTTPError)`.  The `except` clause catches only `ValueError`,
`IndexError` and `KeyError`, so a valid-JSON non-object body escapes as
an uncaught `TypeError` and a non-object `"Fault"` value as an uncaught
`AttributeError`: the function itself can throw, hence the `Except`
result. -/
def create_http_error (code : Nat) (reason : String) (body : FaultBody) :
    Except PcpError HttpErrorPayload :=
  match body with
  | .notJson =>
    .ok { kind := (dlookup errorMap code).getD .generic,
          code := code, msg := reason, details := [] }
  | .jsonNonObject => .error .typeError
  | .noFaultKey =>
    .ok { kind := (dlookup errorMap code).getD .generic,
          code := code, msg := reason, details := [] }
  | .faultNotDict => .error .attributeError
  | .fault fcode fmsg fdetails =>
    let m1 := fcode.getD reason
    let m2 :=
      match fmsg with
      | some mm => m1 ++ ": " ++ mm
      | none => m1
    .ok { kind := (dlookup errorMap code).getD .generic,
          code := code, msg := m2, details := fdetails.getD [] }

theorem errorMap_lookup_none (code : Nat)
    (h : code ∉ [400, 404, 405, 500, 501, 503, 504]) :
    dlookup errorMap code = none := by
  simp only [List.mem_cons, List.mem_singleton, not_or] at h
  obtain ⟨h1, h2, h3, h4, h5, h6, h7, -⟩ := h
  simp [errorMap, dlookup, Ne.symm h1, Ne.symm h2, Ne.symm h3, Ne.symm h4,
    Ne.symm h5, Ne.symm h6, Ne.symm h7]

/-- Refutation of claim C4 as stated: `create_http_error` does NOT
handle every malformed fault body without throwing.  A body that is
valid JSON but not an object (`[1,2,3]`) raises an uncaught `TypeError`
at `json.loads(e.read().decode())["Fault"]`, and `{"Fault": null}`
raises an uncaught `AttributeError` at `fault.get("Code", msg)` — the
`except` clause catches only `ValueError`, `IndexError`, `KeyError`. -/
theorem create_http_error_throws_cex :
    create_http_error 503 "Service Unavailable" .jsonNonObject =
      .error .typeError
    ∧ create_http_error 404 "Not Found" .faultNotDict =
      .error .attributeError := ⟨rfl, rfl⟩

/-- Claim C4 (amended): a valid-JSON non-object body raises an uncaught
`TypeError` and a non-object `"Fault"` value an uncaught
`AttributeError`; for every other body (missing/non-JSON, object without
a Fault key, object with a Fault object) `create_http_error` returns an
error without throwing, whose kind is determined by the status code
(400/404/405/500/501/503/504 map to the named subclasses, everything
else to the generic error), whose message is the fault `Code` if present
else the HTTP reason phrase, augmented with the fault `Message` if
present, and whose details list is the fault `Details` if present, else
empty. -/
theorem create_http_error_spec (code : Nat) (reason : String) (body : FaultBody) :
    create_http_error code reason .jsonNonObject = .error .typeError
    ∧ create_http_error code reason .faultNotDict = .error .attributeError
    ∧ (body ≠ .jsonNonObject → body ≠ .faultNotDict →
      ∃ he, create_http_error code reason body = .ok he
        ∧ (code = 400 → he.kind = .badRequest)
        ∧ (code = 404 → he.kind = .notFound)
        ∧ (code = 405 → he.kind = .methodNotAllowed)
        ∧ (code = 500 → he.kind = .serverError)
        ∧ (code = 501 → he.kind = .unimplemented)
        ∧ (code = 503 → he.kind = .serverBusy)
        ∧ (code = 504 → he.kind = .timeout)
        ∧ (code ∉ [400, 404, 405, 500, 501, 503, 504] → he.kind = .generic)
        ∧ he.code = code
        ∧ (∀ fcode fmsg fdetails, body = .fault fcode fmsg fdetails →
            he.msg =
              (match fmsg with
                | some mm => fcode.getD reason ++ ": " ++ mm
                | none => fcode.getD reason)
            ∧ he.details = fdetails.getD [])
        ∧ ((body = .notJson ∨ body = .noFaultKey) →
            he.msg = reason ∧ he.details = [])) := by
  refine ⟨rfl, rfl, ?_⟩
  intro hno1 hno2
  cases body with
  | jsonNonObject => exact absurd rfl hno1
  | faultNotDict => exact absurd rfl hno2
  | notJson =>
    refine ⟨_, rfl, ?_, ?_, ?_, ?_, ?_, ?_, ?_, ?_, rfl, ?_, ?_⟩
    · intro hc; subst hc; rfl
    · intro hc; subst hc; rfl
    · intro hc; subst hc; rfl
    · intro hc; subst hc; rfl
    · intro hc; subst hc; rfl
    · intro hc; subst hc; rfl
    · intro hc; subst hc; rfl
    · intro h
      show (dlookup errorMap code).getD .generic = .generic
      rw [errorMap_lookup_none code h]
      rfl
    · intro fcode fmsg fdetails hbody; cases hbody
    · intro _; exact ⟨rfl, rfl⟩
  | noFaultKey =>
    refine ⟨_, rfl, ?_, ?_, ?_, ?_, ?_, ?_, ?_, ?_, rfl, ?_, ?_⟩
    · intro hc; subst hc; rfl
    · intro hc; subst hc; rfl
    · intro hc; subst hc; rfl
    · intro hc; subst hc; rfl
    · intro hc; subst hc; rfl
    · intro hc; subst hc; rfl
    · intro hc; subst hc; rfl
    · intro h
      show (dlookup errorMap code).getD .generic = .generic
      rw [errorMap_lookup_none code h]
      rfl
    · intro fcode fmsg fdetails hbody; cases hbody
    · intro _; exact ⟨rfl, rfl⟩
  | fault fcode fmsg fdetails =>
    refine ⟨_, rfl, ?_, ?_, ?_, ?_, ?_, ?_, ?_, ?_, rfl, ?_, ?_⟩
    · intro hc; subst hc; rfl
    · intro hc; subst hc; rfl
    · intro hc; subst hc; rfl
    · intro hc; subst hc; rfl
    · intro hc; subst hc; rfl
    · intro hc; subst hc; rfl
    · intro hc; subst hc; rfl
    · intro h
      show (dlookup errorMap code).getD .generic = .generic
      rw [errorMap_lookup_none code h]
      rfl
    · intro fcode2 fmsg2 fdetails2 hbody
      injection hbody with e1 e2 e3
      subst e1; subst e2; subst e3
      exact ⟨rfl, rfl⟩
    · rintro (h | h) <;> cases h

/-- Closed instance of `create_http_error_spec`: the throwing inputs, the
spec's 404-with-fault and 503-malformed-body test vectors, and a
non-mapped code (418). -/
theorem create_http_error_spec_witness :
    create_http_error 503 "Service Unavailable" .jsonNonObject =
      .error .typeError
    ∧ create_http_error 404 "Not Found" .faultNotDict = .error .attributeError
    ∧ (∃ he, create_http_error 404 "Not Found"
          (.fault (some "PUGREST.NotFound") (some "m") none) = .ok he
        ∧ he.kind = .notFound
        ∧ he.msg = "PUGREST.NotFound" ++ ": " ++ "m"
        ∧ he.details = [])
    ∧ (∃ he, create_http_error 503 "Service Unavailable" .notJson = .ok he
        ∧ he.kind = .serverBusy ∧ he.msg = "Service Unavailable")
    ∧ (∃ he, create_http_error 418 "teapot" .notJson = .ok he
        ∧ he.kind = .generic) := by
  refine ⟨(create_http_error_spec 503 "Service Unavailable" .notJson).1,
    (create_http_error_spec 404 "Not Found" .notJson).2.1, ?_, ?_, ?_⟩
  · obtain ⟨he, hok, _, h404, _, _, _, _, _, _, _, hfault, _⟩ :=
      (create_http_error_spec 404 "Not Found"
        (.fault (some "PUGREST.NotFound") (some "m") none)).2.2
        (by intro h; cases h) (by intro h; cases h)
    obtain ⟨hmsg, hdet⟩ := hfault (some "PUGREST.NotFound") (some "m") none rfl
    exact ⟨he, hok, h404 rfl, hmsg, hdet⟩
  · obtain ⟨he, hok, _, _, _, _, _, h503, _, _, _, _, hnj⟩ :=
      (create_http_error_spec 503 "Service Unavailable" .notJson).2.2
        (by intro h; cases h) (by intro h; cases h)
    exact ⟨he, hok, h503 rfl, (hnj (Or.inl rfl)).1⟩
  · obtain ⟨he, hok, _, _, _, _, _, _, _, hgen, _, _, _⟩ :=
      (create_http_error_spec 418 "teapot" .notJson).2.2
        (by intro h; cases h) (by intro h; cases h)
    exact ⟨he, hok, hgen (by decide)⟩

/-! ### Public query functions and NotFound swallowing (C8)

The transport outcome of the underlying `get(...)` call (decoded payload
on success, classified error on failure) is passed in explicitly; the
envelope unwrapping (`PC_Compounds`, `PropertyTable.Properties`, ...)
is modelled on the already-decoded payload types. -/

/-- Model of `get_json`: `try: return json.loads(get(...)) except
NotFoundError: return None`.  A `NotFoundError` is exactly a
`PubChemHTTPError` whose subclass is `NotFoundError`, i.e. kind
`notFound`; every other exception propagates. -/
def get_json_model (β : Type) (raw : Except PcpError β) :
    Except PcpError (Option β) :=
  match raw with
  | .ok v => .ok (some v)
  | .error (.http he) =>
    if he.kind = .notFound then .ok none else .error (.http he)
  | .error e => .error e

/-- Model of `get_sdf`: same `except NotFoundError: return None` shape
over an SDF string payload. -/
def get_sdf_model (raw : Except PcpError String) : Except PcpError (Option String) :=
  match raw with
  | .ok v => .ok (some v)
  | .error (.http he) =>
    if he.kind = .notFound then .ok none else .error (.http he)
  | .error e => .error e

/-- The list comprehension `[Compound(r) for r in records]`: the first
construction error aborts. -/
def listInitCompound (α : Type) :
    List (CompoundRecord α) → Except PcpError (List (CompoundObj α))
  | [] => .ok []
  | r :: rs =>
    match initCompound α r with
    | .error e => .error e
    | .ok c =>
      match listInitCompound α rs with
      | .error e => .error e
      | .ok cs => .ok (c :: cs)

/-- Model of `get_compounds`: `results = get_json(...); compounds =
[Compound(r) for r in results["PC_Compounds"]] if results else []`. -/
def get_compounds_model (α : Type) (raw : Except PcpError (List (CompoundRecord α))) :
    Except PcpError (List (CompoundObj α)) :=
  match get_json_model (List (CompoundRecord α)) raw with
  | .error e => .error e
  | .ok none => .ok []
  | .ok (some records) => listInitCompound α records

/-- Model of the `Substance` class: `__init__` just stores the record. -/
structure SubstanceObj (γ : Type) where
  record : γ
deriving DecidableEq, Repr

/-- Model of `get_substances`: `[Substance(r) for r in
results["PC_Substances"]] if results else []`. -/
def get_substances_model (γ : Type) (raw : Except PcpError (List γ)) :
    Except PcpError (List (SubstanceObj γ)) :=
  match get_json_model (List γ) raw with
  | .error e => .error e
  | .ok none => .ok []
  | .ok (some records) => .ok (records.map SubstanceObj.mk)

/-- Model of `get_properties`:
`results["PropertyTable"]["Properties"] if results else []`. -/
def get_properties_model (γ : Type) (raw : Except PcpError (List γ)) :
    Except PcpError (List γ) :=
  match get_json_model (List γ) raw with
  | .error e => .error e
  | .ok none => .ok []
  | .ok (some props) => .ok props

/-- Model of `get_synonyms`:
`results["InformationList"]["Information"] if results else []`. -/
def get_synonyms_model (γ : Type) (raw : Except PcpError (List γ)) :
    Except PcpError (List γ) :=
  match get_json_model (List γ) raw with
  | .error e => .error e
  | .ok none => .ok []
  | .ok (some info) => .ok info

/-- The decoded envelope inspected by `get_cids`/`get_sids`/`get_aids`:
either an `IdentifierList` (with its CID/SID/AID array) or an
`InformationList` (with its `Information` array) may be present. -/
structure IdsEnvelope (γ : Type) where
  identifierList : Option (List Nat)
  informationList : Option (List γ)
deriving DecidableEq, Repr

/-- Result of `get_cids`-style functions: an id list, an information
list, or (`none`) Python's implicit `None` fall-through when the
envelope has neither key. -/
inductive IdsReturn (γ : Type) where
  | ids (l : List Nat)
  | info (l : List γ)
deriving DecidableEq, Repr

/-- Model of `get_cids`: `if not results: return []` then the
`IdentifierList` / `InformationList` elif chain. -/
def get_cids_model (γ : Type) (raw : Except PcpError (IdsEnvelope γ)) :
    Except PcpError (Option (IdsReturn γ)) :=
  match get_json_model (IdsEnvelope γ) raw with
  | .error e => .error e
  | .ok none => .ok (some (.ids []))
  | .ok (some env) =>
    match env.identifierList with
    | some l => .ok (some (.ids l))
    | none =>
      match env.informationList with
      | some l => .ok (some (.info l))
      | none => .ok none

/-- Model of `get_sids` (same control flow as `get_cids`, reading the
`SID` array). -/
def get_sids_model (γ : Type) (raw : Except PcpError (IdsEnvelope γ)) :
    Except PcpError (Option (IdsReturn γ)) :=
  match get_json_model (IdsEnvelope γ) raw with
  | .error e => .error e
  | .ok none => .ok (some (.ids []))
  | .ok (some env) =>
    match env.identifierList with
    | some l => .ok (some (.ids l))
    | none =>
      match env.informationList with
      | some l => .ok (some (.info l))
      | none => .ok none

/-- Model of `get_aids` (same control flow as `get_cids`, reading the
`AID` array). -/
def get_aids_model (γ : Type) (raw : Except PcpError (IdsEnvelope γ)) :
    Except PcpError (Option (IdsReturn γ)) :=
  match get_json_model (IdsEnvelope γ) raw with
  | .error e => .error e
  | .ok none => .ok (some (.ids []))
  | .ok (some env) =>
    match env.identifierList with
    | some l => .ok (some (.ids l))
    | none =>
      match env.informationList with
      | some l => .ok (some (.info l))
      | none => .ok none

/-- Model of `Compound.from_cid`: `request(cid, ...)` with NO
`try/except`, `["PC_Compounds"][0]`, then `Compound(record)`; every
transport error propagates unchanged. -/
def from_cid_model (α : Type) (raw : Except PcpError (List (CompoundRecord α))) :
    Except PcpError (CompoundObj α) :=
  match raw with
  | .error e => .error e
  | .ok records =>
    match records with
    | [] => .error .indexError
    | r :: _ => initCompound α r

/-- Model of `Substance.from_sid`: `request(sid, "sid", "substance")`
with no `try/except`, `["PC_Substances"][0]`, then `Substance(record)`. -/
def from_sid_model (γ : Type) (raw : Except PcpError (List γ)) :
    Except PcpError (SubstanceObj γ) :=
  match raw with
  | .error e => .error e
  | .ok records =>
    match records with
    | [] => .error .indexError
    | r :: _ => .ok ⟨r⟩

/-- Claim C8: when the remote service answers with NotFound (HTTP 404 —
every error object the classifier produces for code 404 has kind
`notFound`, i.e. is a `NotFoundError`), the JSON/SDF wrappers and the
bulk query functions return an empty list / absent value without
raising, while the single-record fetches `Compound.from_cid` and
`Substance.from_sid` propagate the `NotFoundError` unchanged. -/
theorem notfound_swallow_spec (α β γ : Type) (he : HttpErrorPayload)
    (hkind : he.kind = .notFound) :
    (∀ (reason : String) (body : FaultBody) he2,
        create_http_error 404 reason body = .ok he2 → he2.kind = .notFound)
    ∧ get_json_model β (.error (.http he)) = .ok none
    ∧ get_sdf_model (.error (.http he)) = .ok none
    ∧ get_compounds_model α (.error (.http he)) = .ok []
    ∧ get_substances_model γ (.error (.http he)) = .ok []
    ∧ get_cids_model γ (.error (.http he)) = .ok (some (.ids []))
    ∧ get_sids_model γ (.error (.http he)) = .ok (some (.ids []))
    ∧ get_aids_model γ (.error (.http he)) = .ok (some (.ids []))
    ∧ get_synonyms_model γ (.error (.http he)) = .ok []
    ∧ get_properties_model γ (.error (.http he)) = .ok []
    ∧ from_cid_model α (.error (.http he)) = .error (.http he)
    ∧ from_sid_model γ (.error (.http he)) = .error (.http he) := by
  have hclass : ∀ (reason : String) (body : FaultBody) he2,
      create_http_error 404 reason body = .ok he2 → he2.kind = .notFound := by
    intro reason body he2 hok
    cases body with
    | notJson => cases hok; rfl
    | jsonNonObject => exact Except.noConfusion hok
    | noFaultKey => cases hok; rfl
    | faultNotDict => exact Except.noConfusion hok
    | fault fcode fmsg fdetails => cases hok; rfl
  refine ⟨hclass, ?_, ?_, ?_, ?_, ?_, ?_, ?_, ?_, ?_, rfl, rfl⟩
  · simp [get_json_model, hkind]
  · simp [get_sdf_model, hkind]
  · simp [get_compounds_model, get_json_model, hkind]
  · simp [get_substances_model, get_json_model, hkind]
  · simp [get_cids_model, get_json_model, hkind]
  · simp [get_sids_model, get_json_model, hkind]
  · simp [get_aids_model, get_json_model, hkind]
  · simp [get_synonyms_model, get_json_model, hkind]
  · simp [get_properties_model, get_json_model, hkind]

/-- Closed instance of `notfound_swallow_spec` at a concrete
`NotFoundError` payload. -/
theorem notfound_swallow_spec_witness :
    (∀ (reason : String) (body : FaultBody) he2,
        create_http_error 404 reason body = .ok he2 → he2.kind = .notFound)
    ∧ get_json_model Int
        (.error (.http ⟨.notFound, 404, "PUGREST.NotFound: m", []⟩)) = .ok none
    ∧ get_compounds_model Int
        (.error (.http ⟨.notFound, 404, "PUGREST.NotFound: m", []⟩)) = .ok []
    ∧ from_cid_model Int
        (.error (.http ⟨.notFound, 404, "PUGREST.NotFound: m", []⟩)) =
        .error (.http ⟨.notFound, 404, "PUGREST.NotFound: m", []⟩) := by
  obtain ⟨h1, h2, h3, h4, h5, h6, h7, h8, h9, h10, h11, h12⟩ :=
    notfound_swallow_spec Int Int Int
      ⟨.notFound, 404, "PUGREST.NotFound: m", []⟩ rfl
  exact ⟨h1, h2, h4, h11⟩

/-! ### URL/Request builder (`request`) -/

/-- A Python `str | int` list element of the identifier argument. -/
inductive StrOrInt where
  | s (v : String)
  | i (v : Int)
deriving DecidableEq, Repr

def StrOrInt.toStr : StrOrInt → String
  | .s v => v
  | .i v => toString v

/-- The identifier argument of `request`: `None`, a string, an int, or a
list of either. -/
inductive PyIdent where
  | pynone
  | pystr (s : String)
  | pyint (n : Int)
  | pylist (xs : List StrOrInt)
deriving DecidableEq, Repr

/-- Python truthiness of the identifier: `not identifier` is true for
`None`, `""`, `[]` and `0`. -/
def PyIdent.falsy : PyIdent → Bool
  | .pynone => true
  | .pystr s => s.isEmpty
  | .pyint n => n = 0
  | .pylist xs => xs.isEmpty

/-- The identifier normalisation of `request`: ints via `str(...)`, lists
comma-joined (`",".join(str(x) for x in identifier)`), strings as-is.
Unreachable for `None` (the falsy check raises first). -/
def PyIdent.normalize : PyIdent → String
  | .pynone => ""
  | .pystr s => s
  | .pyint n => toString n
  | .pylist xs => String.intercalate "," (xs.map StrOrInt.toStr)

/-- Python truthiness of an optional string (`searchtype and ...`). -/
def truthyOpt : Option String → Bool
  | none => false
  | some s => !s.isEmpty

/-- Bytes that `urllib.parse.quote` never escapes: ASCII letters, digits
and `_.-~`. -/
def alwaysSafeByte (b : UInt8) : Bool :=
  (65 ≤ b.toNat && b.toNat ≤ 90) || (97 ≤ b.toNat && b.toNat ≤ 122) ||
    (48 ≤ b.toNat && b.toNat ≤ 57) ||
    (b.toNat == 95 || b.toNat == 46 || b.toNat == 45 || b.toNat == 126)

/-- Uppercase hex digit for a nibble. -/
def hexDigitChar (n : Nat) : Char :=
  if n < 10 then Char.ofNat (48 + n) else Char.ofNat (55 + n)

/-- The `%XX` escape of one byte. -/
def pctByte (b : UInt8) : List Char :=
  ['%', hexDigitChar (b.toNat / 16), hexDigitChar (b.toNat % 16)]

/-- Model of `urllib.parse.quote(s.encode("utf8"))` with the default
`safe="/"`: percent-encode every UTF-8 byte outside the safe set. -/
def pyQuote (s : String) : String :=
  String.mk (s.toUTF8.toList.foldr
    (fun b acc =>
      (if alwaysSafeByte b || b.toNat == 47 then [Char.ofNat b.toNat]
       else pctByte b) ++ acc) [])

/-- Model of `urllib.parse.quote_plus` (the encoder `urlencode` applies
to keys and values): spaces become `+`, nothing else is safe beyond the
always-safe set. -/
def pyQuotePlus (s : String) : String :=
  String.mk (s.toUTF8.toList.foldr
    (fun b acc =>
      (if b.toNat == 32 then ['+']
       else if alwaysSafeByte b then [Char.ofNat b.toNat]
       else pctByte b) ++ acc) [])

/-- Model of `urllib.parse.urlencode` on a pair list. -/
def pyUrlencode (pairs : List (String × String)) : String :=
  String.intercalate "&"
    (pairs.map (fun p => pyQuotePlus p.1 ++ "=" ++ pyQuotePlus p.2))

/-- `filter(None, comps)`: drop absent components and empty strings. -/
def filterFalsyStr (comps : List (Option String)) : List String :=
  (comps.filterMap id).filter (fun s => !s.isEmpty)

def API_BASE : String := "https://pubchem.ncbi.nlm.nih.gov/rest/pug"

/-- The URL and POST body built by `request` (the part of the function up
to the transport call): `urlid` is the identifier component placed in
the path (if any), `postdata` the URL-encoded POST body (if any). -/
structure BuiltRequest where
  urlid : Option String
  postdata : Option String
  apiurl : String
deriving DecidableEq, Repr

/-- Model of `request(identifier, namespace, domain, operation, output,
searchtype, **kwargs)` up to the point where the HTTP call is issued:
input validation of falsy identifiers, identifier normalisation,
`sourceid` slash replacement, path-versus-POST-body placement, path
segment assembly and query-string append. -/
def request_model (identifier : PyIdent) (ns domain : String)
    (operation : Option String) (output : String) (searchtype : Option String)
    (kwargs : List (String × Option String)) : Except PcpError BuiltRequest :=
  if identifier.falsy then .error (.valueError "identifier/cid cannot be None")
  else
    let ident0 := identifier.normalize
    let kw := kwargs.filterMap (fun p =>
      match p.2 with
      | some v => some (p.1, v)
      | none => none)
    let ident1 := if ns = "sourceid" then ident0.replace "/" "." else ident0
    if (ns = "listkey" ∨ ns = "formula" ∨ ns = "sourceid")
        ∨ searchtype = some "xref"
        ∨ (truthyOpt searchtype = true ∧ ns = "cid")
        ∨ domain = "sources" then
      let urlid := pyQuote ident1
      let comps := filterFalsyStr
        [some API_BASE, some domain, searchtype, some ns, some urlid, operation,
         some output]
      let apiurl0 := String.intercalate "/" comps
      .ok { urlid := some urlid, postdata := none,
            apiurl := if kw.isEmpty then apiurl0
                      else apiurl0 ++ "?" ++ pyUrlencode kw }
    else
      let postdata := pyUrlencode [(ns, ident1)]
      let comps := filterFalsyStr
        [some API_BASE, some domain, searchtype, some ns, none, operation,
         some output]
      let apiurl0 := String.intercalate "/" comps
      .ok { urlid := none, postdata := some postdata,
            apiurl := if kw.isEmpty then apiurl0
                      else apiurl0 ++ "?" ++ pyUrlencode kw }

/-- Claim C10: `request` raises `ValueError` for every falsy identifier
(`None`, `""`, `[]`, and the integer `0`, despite its CID-like shape)
before any HTTP request is built or sent. -/
theorem request_rejects_falsy_identifier (ns domain : String)
    (operation : Option String) (output : String) (searchtype : Option String)
    (kwargs : List (String × Option String)) :
    request_model .pynone ns domain operation output searchtype kwargs =
      .error (.valueError "identifier/cid cannot be None")
    ∧ request_model (.pystr "") ns domain operation output searchtype kwargs =
      .error (.valueError "identifier/cid cannot be None")
    ∧ request_model (.pylist []) ns domain operation output searchtype kwargs =
      .error (.valueError "identifier/cid cannot be None")
    ∧ request_model (.pyint 0) ns domain operation output searchtype kwargs =
      .error (.valueError "identifier/cid cannot be None") := by
  exact ⟨rfl, rfl, rfl, rfl⟩

/-- Claim C3: the request builder places the (comma-joined,
percent-encoded) identifier in the URL path iff namespace is `listkey`,
`formula` or `sourceid`, or searchtype is `xref`, or searchtype is
truthy and namespace is `cid`, or domain is `sources`; otherwise the
identifier goes only into the URL-encoded POST body field named after
the namespace and no identifier-derived path component exists. -/
theorem request_identifier_placement (identifier : PyIdent) (ns domain : String)
    (operation : Option String) (output : String) (searchtype : Option String)
    (kwargs : List (String × Option String))
    (h : identifier.falsy = false) :
    ∃ b, request_model identifier ns domain operation output searchtype kwargs =
        .ok b
      ∧ (b.urlid.isSome ↔
          ((ns = "listkey" ∨ ns = "formula" ∨ ns = "sourceid")
            ∨ searchtype = some "xref"
            ∨ (truthyOpt searchtype = true ∧ ns = "cid")
            ∨ domain = "sources"))
      ∧ (((ns = "listkey" ∨ ns = "formula" ∨ ns = "sourceid")
            ∨ searchtype = some "xref"
            ∨ (truthyOpt searchtype = true ∧ ns = "cid")
            ∨ domain = "sources") →
          b.urlid = some (pyQuote (if ns = "sourceid"
              then identifier.normalize.replace "/" "."
              else identifier.normalize))
          ∧ b.postdata = none
          ∧ b.apiurl = (let apiurl0 := String.intercalate "/" (filterFalsyStr
              [some API_BASE, some domain, searchtype, some ns,
               some (pyQuote (if ns = "sourceid"
                 then identifier.normalize.replace "/" "."
                 else identifier.normalize)), operation, some output]);
            if (kwargs.filterMap (fun p =>
                match p.2 with
                | some v => some (p.1, v)
                | none => none)).isEmpty then apiurl0
            else apiurl0 ++ "?" ++ pyUrlencode (kwargs.filterMap (fun p =>
              match p.2 with
              | some v => some (p.1, v)
              | none => none))))
      ∧ (¬ ((ns = "listkey" ∨ ns = "formula" ∨ ns = "sourceid")
            ∨ searchtype = some "xref"
            ∨ (truthyOpt searchtype = true ∧ ns = "cid")
            ∨ domain = "sources") →
          b.urlid = none
          ∧ b.postdata = some (pyUrlencode [(ns, if ns = "sourceid"
              then identifier.normalize.replace "/" "."
              else identifier.normalize)])) := by
  unfold request_model
  rw [h]
  simp only [Bool.false_eq_true, if_false]
  by_cases hcond : (ns = "listkey" ∨ ns = "formula" ∨ ns = "sourceid")
      ∨ searchtype = some "xref"
      ∨ (truthyOpt searchtype = true ∧ ns = "cid")
      ∨ domain = "sources"
  · rw [if_pos hcond]
    refine ⟨_, rfl, ?_, ?_, ?_⟩
    · simp [hcond]
    · intro _
      exact ⟨rfl, rfl, rfl⟩
    · intro hc
      exact absurd hcond hc
  · rw [if_neg hcond]
    refine ⟨_, rfl, ?_, ?_, ?_⟩
    · simp [hcond]
    · intro hc
      exact absurd hc hcond
    · intro _
      exact ⟨rfl, rfl⟩

/-- Closed instance of `request_identifier_placement` on both branches:
namespace `formula` (path placement) and namespace `cid` with no
searchtype (POST body placement). -/
theorem request_identifier_placement_witness :
    (∃ b, request_model (.pystr "C9H8O4") "formula" "compound" none "JSON"
        none [] = .ok b
      ∧ (b.urlid.isSome ↔
          (("formula" = "listkey" ∨ "formula" = "formula" ∨ "formula" = "sourceid")
            ∨ (none : Option String) = some "xref"
            ∨ (truthyOpt none = true ∧ "formula" = "cid")
            ∨ "compound" = "sources"))
      ∧ ((("formula" = "listkey" ∨ "formula" = "formula" ∨ "formula" = "sourceid")
            ∨ (none : Option String) = some "xref"
            ∨ (truthyOpt none = true ∧ "formula" = "cid")
            ∨ "compound" = "sources") →
          b.urlid = some (pyQuote (if "formula" = "sourceid"
              then (PyIdent.pystr "C9H8O4").normalize.replace "/" "."
              else (PyIdent.pystr "C9H8O4").normalize))
          ∧ b.postdata = none
          ∧ b.apiurl = (let apiurl0 := String.intercalate "/" (filterFalsyStr
              [some API_BASE, some "compound", none, some "formula",
               some (pyQuote (if "formula" = "sourceid"
                 then (PyIdent.pystr "C9H8O4").normalize.replace "/" "."
                 else (PyIdent.pystr "C9H8O4").normalize)), none, some "JSON"]);
            if (([] : List (String × Option String)).filterMap (fun p =>
                match p.2 with
                | some v => some (p.1, v)
                | none => none)).isEmpty then apiurl0
            else apiurl0 ++ "?" ++ pyUrlencode
              (([] : List (String × Option String)).filterMap (fun p =>
                match p.2 with
                | some v => some (p.1, v)
                | none => none))))
      ∧ (¬ (("formula" = "listkey" ∨ "formula" = "formula" ∨ "formula" = "sourceid")
            ∨ (none : Option String) = some "xref"
            ∨ (truthyOpt none = true ∧ "formula" = "cid")
            ∨ "compound" = "sources") →
          b.urlid = none
          ∧ b.postdata = some (pyUrlencode [("formula", if "formula" = "sourceid"
              then (PyIdent.pystr "C9H8O4").normalize.replace "/" "."
              else (PyIdent.pystr "C9H8O4").normalize)])))
    ∧ (∃ b, request_model (.pyint 2244) "cid" "compound" none "JSON" none [] =
        .ok b
      ∧ b.urlid = none
      ∧ b.postdata = some (pyUrlencode [("cid", (PyIdent.pyint 2244).normalize)])) := by
  constructor
  · exact request_identifier_placement (.pystr "C9H8O4") "formula" "compound"
      none "JSON" none [] (by decide)
  · obtain ⟨b, hb, hiff, hpath, hbody⟩ :=
      request_identifier_placement (.pyint 2244) "cid" "compound"
        none "JSON" none [] (by decide)
    have hnc : ¬ (("cid" = "listkey" ∨ "cid" = "formula" ∨ "cid" = "sourceid")
        ∨ (none : Option String) = some "xref"
        ∨ (truthyOpt none = true ∧ "cid" = "cid")
        ∨ "compound" = "sources") := by decide
    obtain ⟨hu, hp⟩ := hbody hnc
    have hid : (if "cid" = "sourceid"
        then (PyIdent.pyint 2244).normalize.replace "/" "."
        else (PyIdent.pyint 2244).normalize) = (PyIdent.pyint 2244).normalize := by
      decide
    rw [hid] at hp
    exact ⟨b, hb, hu, hp⟩

/-! ### Async poller (`get`) -/

/-- The argument tuple of one `request(...)` call issued by `get`. -/
structure Req where
  identifier : String
  ns : String
  domain : String
  operation : Option String
  output : String
  searchtype : Option String
deriving DecidableEq, Repr

/-- One decoded JSON response from the scripted transport: either a
waiting envelope carrying a ListKey (both `"Waiting" in status` and
`"ListKey" in status["Waiting"]` hold) or a final body for which that
compound condition fails. -/
inductive RespBody where
  | waiting (listKey : String)
  | final (payload : String)
deriving DecidableEq, Repr

/-- Observable events of `get`: issued requests and `time.sleep` calls. -/
inductive Ev where
  | req (r : Req)
  | sleep (n : Nat)
deriving DecidableEq, Repr

/-- The `while "Waiting" in status ...` loop of `get`: given the current
decoded status and the remaining transport script, repeatedly sleep 2
and re-issue the request with the identifier/namespace fixed BEFORE the
loop (they are not updated inside it), output forced to JSON and no
searchtype, until the status is no longer a waiting envelope.  Returns
the event log, the final status and the unconsumed script. -/
def pollWhile (ident ns domain : String) (operation : Option String) :
    RespBody → List RespBody →
    Except PcpError (List Ev × RespBody × List RespBody)
  | .final p, script => .ok ([], .final p, script)
  | .waiting _, [] => .error .scriptExhausted
  | .waiting _, r :: rest =>
    match pollWhile ident ns domain operation r rest with
    | .error e => .error e
    | .ok (log, st, rem) =>
      .ok (.sleep 2 :: .req ⟨ident, ns, domain, operation, "JSON", none⟩ :: log,
        st, rem)

/-- Model of `get(identifier, namespace, domain, operation, output,
searchtype)` run against a scripted transport (list of decoded responses
consumed in order).  On the async path (truthy searchtype other than
`xref`, or namespace `formula`) the first request is issued with
operation `None` and output forced to JSON; a waiting response switches
the identifier to the ListKey and the namespace to `listkey` and enters
the poll loop; if the caller asked for a non-JSON output one extra
request with the original operation/output/searchtype is issued at the
end.  Returns the event log and the returned response. -/
def get_model (script : List RespBody) (identifier ns domain : String)
    (operation : Option String) (output : String) (searchtype : Option String) :
    Except PcpError (List Ev × RespBody) :=
  if (truthyOpt searchtype = true ∧ ¬ searchtype = some "xref") ∨ ns = "formula" then
    match script with
    | [] => .error .scriptExhausted
    | r0 :: rest =>
      let log0 := [Ev.req ⟨identifier, ns, domain, none, "JSON", searchtype⟩]
      match r0 with
      | .waiting k =>
        match pollWhile k "listkey" domain operation r0 rest with
        | .error e => .error e
        | .ok (log1, st, rem) =>
          if ¬ output = "JSON" then
            match rem with
            | [] => .error .scriptExhausted
            | rf :: _ =>
              .ok (log0 ++ log1 ++
                [Ev.req ⟨k, "listkey", domain, operation, output, searchtype⟩], rf)
          else .ok (log0 ++ log1, st)
      | .final p => .ok (log0, .final p)
  else
    match script with
    | [] => .error .scriptExhausted
    | r0 :: _ =>
      .ok ([Ev.req ⟨identifier, ns, domain, operation, output, searchtype⟩], r0)

/-- Claim C2: on the async path with JSON output, a scripted transport
answering first `{"Waiting": {"ListKey": K}}` and then a final JSON body
makes `get` issue exactly two requests — the second after a sleep of the
fixed 2-unit delay, with namespace `listkey`, identifier `K`, the same
domain, and output JSON — and return the second response payload. -/
theorem get_poll_two_requests (identifier ns domain : String)
    (operation : Option String) (searchtype : Option String) (K P : String)
    (hcond : (truthyOpt searchtype = true ∧ ¬ searchtype = some "xref")
      ∨ ns = "formula") :
    get_model [.waiting K, .final P] identifier ns domain operation "JSON"
        searchtype =
      .ok ([.req ⟨identifier, ns, domain, none, "JSON", searchtype⟩,
            .sleep 2,
            .req ⟨K, "listkey", domain, operation, "JSON", none⟩],
        .final P)
    ∧ (([Ev.req ⟨identifier, ns, domain, none, "JSON", searchtype⟩,
         Ev.sleep 2,
         Ev.req ⟨K, "listkey", domain, operation, "JSON", none⟩].countP
          (fun ev => match ev with
            | .req _ => true
            | .sleep _ => false)) = 2) := by
  constructor
  · unfold get_model
    rw [if_pos hcond]
    rfl
  · rfl

/-- Closed instance of `get_poll_two_requests` at a similarity search
(`searchtype = similarity`, namespace `cid`). -/
theorem get_poll_two_requests_witness :
    get_model [.waiting "K123", .final "PAYLOAD"] "2244" "cid" "compound"
        none "JSON" (some "similarity") =
      .ok ([.req ⟨"2244", "cid", "compound", none, "JSON", some "similarity"⟩,
            .sleep 2,
            .req ⟨"K123", "listkey", "compound", none, "JSON", none⟩],
        .final "PAYLOAD") := by
  exact (get_poll_two_requests "2244" "cid" "compound" none (some "similarity")
    "K123" "PAYLOAD" (by decide)).1

/-! ### CACTVS fingerprint decoding (`Compound.cactvs_fingerprint`) -/

/-- Hex digit value of one character (the per-digit semantics of
`int(s, 16)`). -/
def hexVal? (c : Char) : Option Nat :=
  if 48 ≤ c.toNat ∧ c.toNat ≤ 57 then some (c.toNat - 48)
  else if 97 ≤ c.toNat ∧ c.toNat ≤ 102 then some (c.toNat - 87)
  else if 65 ≤ c.toNat ∧ c.toNat ≤ 70 then some (c.toNat - 55)
  else none

/-- Big-endian fold of `int(s, 16)`. -/
def hexToNatGo (acc : Nat) : List Char → Option Nat
  | [] => some acc
  | c :: cs =>
    match hexVal? c with
    | none => none
    | some d => hexToNatGo (acc * 16 + d) cs

/-- Model of `int(s, 16)` on a character list (`none` models the
`ValueError` raised on an empty or non-hex string). -/
def hexToNat? (cs : List Char) : Option Nat :=
  if cs.isEmpty then none else hexToNatGo 0 cs

/-- The minimal binary rendering of a natural (most significant bit
first; empty for 0 — the format's zero-padding below absorbs the
difference with Python's `"0"`). -/
def natToBinChars (n : Nat) : List Char :=
  ((Nat.digits 2 n).map (fun d => if d = 1 then '1' else '0')).reverse

/-- Left zero-padding to a minimum width: both the `020b` format width
and `str.zfill`. -/
def leftpadZeros (w : Nat) (cs : List Char) : List Char :=
  List.replicate (w - cs.length) '0' ++ cs

/-- Model of `Compound.cactvs_fingerprint`:
`f"{int(self.fingerprint[8:], 16):020b}"[:-7].zfill(881)` — skip the
first 8 hex characters (the 4-byte length prefix), parse the rest as a
big-endian hex integer, render it in binary with a minimum width of 20,
drop the trailing 7 padding bits, left-pad with zeros to 881. -/
def cactvs_fingerprint (fp : List Char) : Option (List Char) :=
  match hexToNat? (fp.drop 8) with
  | none => none
  | some n =>
    let padded := leftpadZeros 20 (natToBinChars n)
    some (leftpadZeros 881 (padded.take (padded.length - 7)))

theorem hexVal_lt16 (c : Char) (d : Nat) (h : hexVal? c = some d) : d < 16 := by
  unfold hexVal? at h
  split_ifs at h with h1 h2 h3
  · injection h with h4; omega
  · injection h with h4; omega
  · injection h with h4; omega

theorem hexToNatGo_ok :
    ∀ (cs : List Char) (acc : Nat), (∀ c ∈ cs, (hexVal? c).isSome) →
      ∃ m, hexToNatGo acc cs = some m ∧ m < (acc + 1) * 16 ^ cs.length := by
  intro cs
  induction cs with
  | nil =>
    intro acc _
    exact ⟨acc, rfl, by simp⟩
  | cons c cs ih =>
    intro acc hall
    obtain ⟨d, hd⟩ := Option.isSome_iff_exists.mp
      (hall c (List.mem_cons_self c cs))
    have hd16 : d < 16 := hexVal_lt16 c d hd
    obtain ⟨m, hm, hmlt⟩ := ih (acc * 16 + d)
      (fun c2 hc2 => hall c2 (List.mem_cons_of_mem c hc2))
    refine ⟨m, by simp [hexToNatGo, hd, hm], ?_⟩
    have hstep : acc * 16 + d + 1 ≤ (acc + 1) * 16 := by omega
    calc m < (acc * 16 + d + 1) * 16 ^ cs.length := hmlt
      _ ≤ (acc + 1) * 16 * 16 ^ cs.length :=
          Nat.mul_le_mul_right _ hstep
      _ = (acc + 1) * 16 ^ (c :: cs).length := by
          rw [List.length_cons, pow_succ]
          ring

theorem digits_len_le_of_lt_two_pow (m k : Nat) (h : m < 2 ^ k) :
    (Nat.digits 2 m).length ≤ k := by
  rcases Nat.eq_zero_or_pos m with hm | hm
  · subst hm; simp
  · have h1 : 2 ^ (Nat.digits 2 m).length ≤ 2 * m :=
      Nat.base_pow_length_digits_le 2 m (by norm_num) (by omega)
    have h2 : 2 * m < 2 ^ (k + 1) := by
      rw [pow_succ]
      omega
    have h3 : 2 ^ (Nat.digits 2 m).length < 2 ^ (k + 1) :=
      lt_of_le_of_lt h1 h2
    have h4 : (Nat.digits 2 m).length < k + 1 :=
      (Nat.pow_lt_pow_iff_right (by norm_num)).mp h3
    omega

theorem length_leftpadZeros (w : Nat) (cs : List Char) :
    (leftpadZeros w cs).length = max w cs.length := by
  simp [leftpadZeros]
  omega

theorem mem_natToBinChars (n : Nat) (c : Char) (h : c ∈ natToBinChars n) :
    c = '0' ∨ c = '1' := by
  simp only [natToBinChars, List.mem_reverse, List.mem_map] at h
  obtain ⟨d, _, hd⟩ := h
  by_cases h1 : d = 1
  · right; rw [← hd, if_pos h1]
  · left; rw [← hd, if_neg h1]

/-- The composite padding/truncation of the fingerprint transform equals
taking the top 881 bits of the value zero-padded to 888 bits. -/
theorem pad_take_eq (b : List Char) (hL : b.length ≤ 888) :
    leftpadZeros 881 ((leftpadZeros 20 b).take ((leftpadZeros 20 b).length - 7))
      = (leftpadZeros 888 b).take 881 := by
  by_cases h7 : b.length ≤ 7
  · -- the value fits in 7 bits: everything is zeros
    have hinner : (leftpadZeros 20 b).take ((leftpadZeros 20 b).length - 7)
        = List.replicate 13 '0' := by
      have hM : (leftpadZeros 20 b).length - 7 = 13 := by
        simp [leftpadZeros]
        omega
      rw [hM, leftpadZeros, List.take_append_eq_append_take, List.length_replicate]
      rw [List.take_replicate]
      have h1 : min 13 (20 - b.length) = 13 := by omega
      have h2 : 13 - (20 - b.length) = 0 := by omega
      rw [h1, h2, List.take_zero, List.append_nil]
    rw [hinner]
    have hlhs : leftpadZeros 881 (List.replicate 13 '0') =
        List.replicate 881 '0' := by
      rw [leftpadZeros, List.length_replicate, ← List.replicate_add]
    have hrhs : (leftpadZeros 888 b).take 881 = List.replicate 881 '0' := by
      rw [leftpadZeros, List.take_append_eq_append_take, List.length_replicate]
      rw [List.take_replicate]
      have h1 : min 881 (888 - b.length) = 881 := by omega
      have h2 : 881 - (888 - b.length) = 0 := by omega
      rw [h1, h2, List.take_zero, List.append_nil]
    rw [hlhs, hrhs]
  · -- at least 8 bits: the last 7 bits of the value are dropped
    have hinner : (leftpadZeros 20 b).take ((leftpadZeros 20 b).length - 7)
        = List.replicate (20 - b.length) '0' ++ b.take (b.length - 7) := by
      have hM : (leftpadZeros 20 b).length - 7 = (20 - b.length) + (b.length - 7) := by
        simp [leftpadZeros]
        omega
      rw [hM, leftpadZeros, List.take_append_eq_append_take, List.length_replicate]
      rw [List.take_of_length_le (show (List.replicate (20 - b.length) '0').length ≤
        (20 - b.length) + (b.length - 7) from by rw [List.length_replicate]; omega)]
      have h2 : (20 - b.length) + (b.length - 7) - (20 - b.length) = b.length - 7 := by
        omega
      rw [h2]
    rw [hinner]
    have hlhs : leftpadZeros 881
        (List.replicate (20 - b.length) '0' ++ b.take (b.length - 7))
        = List.replicate (888 - b.length) '0' ++ b.take (b.length - 7) := by
      rw [leftpadZeros]
      have hilen : (List.replicate (20 - b.length) '0' ++
          b.take (b.length - 7)).length = (20 - b.length) + (b.length - 7) := by
        simp only [List.length_append, List.length_replicate, List.length_take]
        omega
      rw [hilen, ← List.append_assoc, ← List.replicate_add]
      have h3 : 881 - ((20 - b.length) + (b.length - 7)) + (20 - b.length)
          = 888 - b.length := by omega
      rw [h3]
    have hrhs : (leftpadZeros 888 b).take 881
        = List.replicate (888 - b.length) '0' ++ b.take (b.length - 7) := by
      rw [leftpadZeros, List.take_append_eq_append_take, List.length_replicate]
      rw [List.take_of_length_le (show (List.replicate (888 - b.length) '0').length ≤
        881 from by rw [List.length_replicate]; omega)]
      have h4 : 881 - (888 - b.length) = b.length - 7 := by omega
      rw [h4]
    rw [hlhs, hrhs]

/-- Claim C9: for every 230-character hex fingerprint string,
`cactvs_fingerprint` drops the first 8 hex characters (the 4-byte length
prefix), interprets the remaining 222 hex characters as a big-endian
integer, renders it in binary, drops the trailing 7 padding bits and
left-pads with zeros, producing exactly 881 characters of `0`/`1` —
deterministically equal to the top 881 bits of the 888-bit zero-padded
value. -/
theorem cactvs_fingerprint_spec (fp : List Char) (hlen : fp.length = 230)
    (hhex : ∀ c ∈ fp.drop 8, (hexVal? c).isSome) :
    ∃ n out, hexToNat? (fp.drop 8) = some n ∧ n < 2 ^ 888
      ∧ cactvs_fingerprint fp = some out
      ∧ out.length = 881
      ∧ (∀ c ∈ out, c = '0' ∨ c = '1')
      ∧ out = (leftpadZeros 888 (natToBinChars n)).take 881 := by
  have hdlen : (fp.drop 8).length = 222 := by
    rw [List.length_drop, hlen]
  obtain ⟨n, hn, hnlt⟩ := hexToNatGo_ok (fp.drop 8) 0 hhex
  have hne : (fp.drop 8).isEmpty = false := by
    cases h : fp.drop 8 with
    | nil => rw [h] at hdlen; simp at hdlen
    | cons a l => rfl
  have hhx : hexToNat? (fp.drop 8) = some n := by
    unfold hexToNat?
    rw [hne]
    simpa using hn
  have hnlt2 : n < 2 ^ 888 := by
    have hpow : (0 + 1) * 16 ^ (fp.drop 8).length = 2 ^ 888 := by
      rw [hdlen]
      rw [show (16 : Nat) = 2 ^ 4 from rfl, ← pow_mul]
      norm_num
    rwa [hpow] at hnlt
  have hbl : (natToBinChars n).length ≤ 888 := by
    rw [show (natToBinChars n).length = (Nat.digits 2 n).length from by
      simp [natToBinChars]]
    exact digits_len_le_of_lt_two_pow n 888 hnlt2
  refine ⟨n, _, hhx, hnlt2, ?_, ?_, ?_, pad_take_eq (natToBinChars n) hbl⟩
  · rw [cactvs_fingerprint, hhx]
  · -- length of the padded/truncated result
    rw [pad_take_eq (natToBinChars n) hbl]
    rw [List.length_take, length_leftpadZeros]
    omega
  · -- every character is a bit
    intro c hc
    rw [pad_take_eq (natToBinChars n) hbl] at hc
    have hc2 : c ∈ leftpadZeros 888 (natToBinChars n) :=
      List.take_subset _ _ hc
    rw [leftpadZeros] at hc2
    rcases List.mem_append.mp hc2 with hc3 | hc3
    · left
      exact List.eq_of_mem_replicate hc3
    · exact mem_natToBinChars n c hc3

/-- Closed instance of `cactvs_fingerprint_spec` on the all-zero
230-character hex string. -/
theorem cactvs_fingerprint_spec_witness :
    ∃ n out, hexToNat? ((List.replicate 230 '0').drop 8) = some n ∧ n < 2 ^ 888
      ∧ cactvs_fingerprint (List.replicate 230 '0') = some out
      ∧ out.length = 881
      ∧ (∀ c ∈ out, c = '0' ∨ c = '1')
      ∧ out = (leftpadZeros 888 (natToBinChars n)).take 881 := by
  refine cactvs_fingerprint_spec (List.replicate 230 '0')
    (by rw [List.length_replicate]) ?_
  intro c hc
  have hc0 : c = '0' := List.eq_of_mem_replicate (List.drop_subset _ _ hc)
  rw [hc0]
  rfl
